import Mathlib

/-!
Verification of `papi-try.cc` (pdlfs/papi-try).

The program is shallowly embedded as a trace-producing computation.  Every
observable action of the C code (a `printf`/`fprintf` call, an MPI call, a
PAPI counter-group operation, a `malloc`, arming the alarm) is recorded as
an event; external subsystem outcomes (PAPI return codes, MPI success,
malloc success) are supplied by an abstract environment `Env`.  The
`SIGALRM` watchdog is modelled by an optional interruption point: the
signal may be delivered just before any event of the uninterrupted trace,
and takes effect only while an alarm with a positive timeout is armed.
-/

/-- Observable events of one process: each constructor corresponds to one
observable call in `papi-try.cc` (stdout line, stderr line, MPI call,
PAPI counter-group operation, allocation, alarm arming). -/
inductive Ev where
  | out : String → Ev
  | err : String → Ev
  | mpiFinalize : Ev
  | mpiBarrier : Ev
  | papiCreate : Ev
  | papiAdd : List Int → Ev
  | papiStart : Ev
  | papiReset : Ev
  | papiRead : Ev
  | papiShutdown : Ev
  | alloc : Nat → Ev
  | free : Nat → Ev
  | alarmSet : Int → Ev
  deriving DecidableEq, Repr

/-- Result of running a piece of the program: either the process called
`exit code` (with the events emitted so far), or the piece finished
normally with a value and its emitted events. -/
inductive Res (α : Type) where
  | exited : Nat → List Ev → Res α
  | ok : α → List Ev → Res α
  deriving DecidableEq, Repr

/-- Prepend already-emitted events onto a result. -/
def Res.withTrace (pre : List Ev) : Res α → Res α
  | .exited c tr => .exited c (pre ++ tr)
  | .ok a tr => .ok a (pre ++ tr)

/-- Sequencing: if the first piece exited, the rest never runs. -/
def Res.bind (m : Res α) (f : α → Res β) : Res β :=
  match m with
  | .exited c tr => .exited c tr
  | .ok a tr => Res.withTrace tr (f a)

/-- A value with no events. -/
def Res.pure (a : α) : Res α := .ok a []

/-- Emit one event. -/
def Res.emit (e : Ev) : Res Unit := .ok () [e]

/-- The C `exit(code)` call. -/
def Res.exitProc (c : Nat) : Res Unit := .exited c []

/-- The events emitted by a computation (up to the exit point, if any). -/
def traceOf : Res α → List Ev
  | .exited _ tr => tr
  | .ok _ tr => tr

/-- The process exit code: `exit`'s argument, or 0 when `main` returns. -/
def exitCode : Res Unit → Nat
  | .exited c _ => c
  | .ok _ _ => 0

@[simp] theorem Res.bind_exited (c : Nat) (tr : List Ev) (f : α → Res β) :
    Res.bind (Res.exited c tr) f = Res.exited c tr := rfl

@[simp] theorem Res.bind_ok (a : α) (tr : List Ev) (f : α → Res β) :
    Res.bind (Res.ok a tr) f = Res.withTrace tr (f a) := rfl

@[simp] theorem Res.withTrace_exited (pre : List Ev) (c : Nat) (tr : List Ev) :
    Res.withTrace pre (Res.exited c tr : Res α) = Res.exited c (pre ++ tr) := rfl

@[simp] theorem Res.withTrace_ok (pre : List Ev) (a : α) (tr : List Ev) :
    Res.withTrace pre (Res.ok a tr) = Res.ok a (pre ++ tr) := rfl

@[simp] theorem traceOf_exited (c : Nat) (tr : List Ev) :
    traceOf (Res.exited c tr : Res α) = tr := rfl

@[simp] theorem traceOf_ok (a : α) (tr : List Ev) :
    traceOf (Res.ok a tr) = tr := rfl

@[simp] theorem traceOf_withTrace (pre : List Ev) (r : Res α) :
    traceOf (Res.withTrace pre r) = pre ++ traceOf r := by
  cases r <;> rfl

/-- Abstract behavior of the external subsystems (PAPI, MPI, libc) as seen
by one process.  `nameToCode` is `PAPI_event_name_to_code`; the `…Ok`
fields are the return codes of the corresponding calls; `counterOf` gives
the value `PAPI_read` reports for an event code; `strerror` is
`PAPI_strerror`; `osErr` is `strerror(errno)` after a failed `malloc`. -/
structure Env where
  nameToCode : String → Except Int Int
  libInitOk : Bool
  threadInitOk : Except Int Unit
  createOk : Except Int Unit
  addOk : Except Int Unit
  startOk : Except Int Unit
  resetOk : Except Int Unit
  readOk : Except Int Unit
  counterOf : Int → Int
  strerror : Int → String
  mallocOk : Bool
  osErr : String
  mpiInitOk : Bool
  rankOk : Bool
  sizeOk : Bool
  size : Nat

/-- Parsed command line, at the granularity `getopt` hands it to `main`:
the text given to `-t` (if any), whether an unrecognized option occurred,
and the positional arguments left after option processing. -/
structure Cmdline where
  tArg : Option String
  badFlag : Bool
  posArgs : List String
  deriving DecidableEq, Repr

/-- `MAX_EVENTS` from the source: size of the `g.names` array. -/
def MAX_EVENTS : Nat := 16

/-- Characters accepted by `isspace` in the C locale. -/
def isSpaceChar (c : Char) : Bool :=
  c == ' ' || c == '\t' || c == '\n' || c == '\x0b' || c == '\x0c' || c == '\r'

/-- Accumulate a decimal value over a leading run of digits, as `atoi`
does after the optional sign; stops at the first non-digit. -/
def digitsAcc : List Char → Int → Int
  | [], acc => acc
  | c :: cs, acc =>
    if c.isDigit then digitsAcc cs (acc * 10 + ((c.toNat : Int) - 48)) else acc

/-- C `atoi`: optional whitespace, optional sign, leading digits; any
string without leading digits (after sign) yields 0. -/
def atoi (s : String) : Int :=
  match s.toList.dropWhile isSpaceChar with
  | '-' :: rest => - digitsAcc rest 0
  | '+' :: rest => digitsAcc rest 0
  | cs => digitsAcc cs 0

/-- The four default event names installed in `g.names` before option
processing. -/
def defaultNames : List String :=
  ["PAPI_L1_DCM", "PAPI_L1_DCA", "PAPI_L2_DCM", "PAPI_L2_DCA"]

/-- The effective event list: positional arguments override the default
list when present (`if (argc != 0) { … g.n = argc; }`). -/
def effNames (cl : Cmdline) : List String :=
  if cl.posArgs = [] then defaultNames else cl.posArgs

/-- The timeout in effect after option processing: `DEF_TIMEOUT` (120) or
the `atoi` of the `-t` argument. -/
def timeoutOf (cl : Cmdline) : Int :=
  match cl.tArg with
  | none => 120
  | some s => atoi s

/-- Array indices written by the positional-argument copy loop
`for (i = 0; i < argc; i++) g.names[i] = argv[i];` in `main`. -/
def posWrites (args : List String) : List Nat := List.range args.length

/-- Whether every store of the copy loop stays inside the 16-slot
`g.names` array. -/
def writesInBounds (args : List String) : Bool :=
  (posWrites args).all (fun i => decide (i < MAX_EVENTS))

/-- `vcomplain`: print `argv0: msg` to stderr (suppressed on non-zero
ranks when `r0only`), then, if `ret` is non-zero, `MPI_Finalize` and
`exit(ret)`. -/
def vcomplain (argv0 : String) (myrank : Nat) (ret : Nat) (r0only : Bool)
    (msg : String) : Res Unit :=
  Res.bind
    (if r0only = false ∨ myrank = 0 then Res.emit (Ev.err (argv0 ++ ": " ++ msg))
     else Res.pure ())
    (fun _ =>
      if ret ≠ 0 then
        Res.bind (Res.emit Ev.mpiFinalize) (fun _ => Res.exitProc ret)
      else Res.pure ())

/-- `complain` formats its arguments and calls `vcomplain`; the formatted
message is passed in already assembled. -/
def complain (argv0 : String) (myrank : Nat) (ret : Nat) (r0only : Bool)
    (msg : String) : Res Unit :=
  vcomplain argv0 myrank ret r0only msg

/-- `PAPI_complain`: `complain(EXIT_FAILURE, 0, "PAPI %s: %s", msg,
PAPI_strerror(err))`. -/
def PAPI_complain (env : Env) (argv0 : String) (myrank : Nat) (err : Int)
    (msg : String) : Res Unit :=
  complain argv0 myrank 1 false ("PAPI " ++ msg ++ ": " ++ env.strerror err)

/-- The `if (rv != PAPI_OK) PAPI_complain(rv, msg);` pattern. -/
def papiCheck (env : Env) (argv0 : String) (myrank : Nat)
    (r : Except Int Unit) (msg : String) : Res Unit :=
  match r with
  | .ok _ => Res.pure ()
  | .error rv => PAPI_complain env argv0 myrank rv msg

/-- The event code `PAPI_event_name_to_code` stores for a name (0 when the
lookup fails, in which case the program has already exited). -/
def codeOf (env : Env) (nm : String) : Int :=
  match env.nameToCode nm with
  | .ok c => c
  | .error _ => 0

/-- The codes the resolution loop of `PAPI_prepare` produces when every
name resolves. -/
def resolvedCodes (env : Env) (names : List String) : List Int :=
  names.map (codeOf env)

/-- The first name of the list rejected by `PAPI_event_name_to_code`,
with its error code, if any. -/
def firstRejected (env : Env) : List String → Option (String × Int)
  | [] => none
  | nm :: rest =>
    match env.nameToCode nm with
    | .ok _ => firstRejected env rest
    | .error rv => some (nm, rv)

/-- The name-resolution loop of `PAPI_prepare`: resolve each name in
order; the first failure calls `PAPI_complain`, which exits. -/
def resolveNames (env : Env) (argv0 : String) (myrank : Nat) :
    List String → Res (List Int)
  | [] => Res.pure []
  | nm :: rest =>
    match env.nameToCode nm with
    | .ok c =>
      Res.bind (resolveNames env argv0 myrank rest) (fun cs => Res.pure (c :: cs))
    | .error rv =>
      Res.bind (PAPI_complain env argv0 myrank rv nm) (fun _ => Res.pure [])

/-- `PAPI_prepare`: resolve all names, then `PAPI_add_events` with the
whole batch. -/
def PAPI_prepare (env : Env) (argv0 : String) (myrank : Nat)
    (names : List String) : Res (List Int) :=
  Res.bind (resolveNames env argv0 myrank names) (fun codes =>
  Res.bind (Res.emit (Ev.papiAdd codes)) (fun _ =>
  Res.bind (papiCheck env argv0 myrank env.addOk "add events") (fun _ =>
  Res.pure codes)))

/-- `PAPI_run`: `PAPI_start` plus error check. -/
def PAPI_run (env : Env) (argv0 : String) (myrank : Nat) : Res Unit :=
  Res.bind (Res.emit Ev.papiStart) (fun _ =>
  papiCheck env argv0 myrank env.startOk "start")

/-- `PAPI_clear`: `PAPI_reset` plus error check. -/
def PAPI_clear (env : Env) (argv0 : String) (myrank : Nat) : Res Unit :=
  Res.bind (Res.emit Ev.papiReset) (fun _ =>
  papiCheck env argv0 myrank env.resetOk "reset")

/-- `PAPI_fetch`: `PAPI_read` plus error check; on success the counter
array holds one value per event in the set, in insertion order. -/
def PAPI_fetch (env : Env) (argv0 : String) (myrank : Nat)
    (codes : List Int) : Res (List Int) :=
  Res.bind (Res.emit Ev.papiRead) (fun _ =>
  Res.bind (papiCheck env argv0 myrank env.readOk "read") (fun _ =>
  Res.pure (codes.map env.counterOf)))

/-- The `name: value` lines the `report` loop prints, in order. -/
def reportLines : List String → List Int → List String
  | nm :: nms, v :: vs => (nm ++ ": " ++ toString v) :: reportLines nms vs
  | _, _ => []

/-- The stdout events of one `report` call: blank line, the `name: value`
lines, blank line. -/
def reportTrace (names : List String) (value : List Int) : List Ev :=
  Ev.out "" :: ((reportLines names value).map Ev.out ++ [Ev.out ""])

/-- `report`: print the counter sample, one line per event name. -/
def report (names : List String) (value : List Int) : Res Unit :=
  Res.ok () (reportTrace names value)

/-- The stderr lines `usage` prints on rank 0 (one event per `fprintf`). -/
def usageMsgEvs (argv0 : String) (msg : Option String) : List Ev :=
  (match msg with
   | some m => [Ev.err (argv0 ++ ": " ++ m)]
   | none => []) ++
  [Ev.err ("usage: " ++ argv0 ++ " [options]"),
   Ev.err "\noptions:",
   Ev.err "\t-t sec      timeout (alarm), in seconds"]

/-- `usage`: rank 0 prints the usage text, every rank then finalizes MPI
and exits 1. -/
def usage (argv0 : String) (myrank : Nat) (msg : Option String) : Res Unit :=
  Res.bind (Res.ok () (if myrank = 0 then usageMsgEvs argv0 msg else []))
    (fun _ => Res.bind (Res.emit Ev.mpiFinalize) (fun _ => Res.exitProc 1))

/-- The events of one `runops` call: on malloc success an allocation and
the `MiB: OK` stdout line (the byte-touch loop is unobservable), on
failure a stderr diagnostic with the OS reason.  No release event exists
anywhere in `runops`. -/
def runopsTrace (env : Env) (sz : Nat) : List Ev :=
  if env.mallocOk = true then
    [Ev.alloc sz, Ev.out (toString (sz / 2 ^ 20) ++ " MiB: OK")]
  else
    [Ev.err ("Cannot alloc memory, " ++ toString (sz / 2 ^ 20) ++ " MiB: " ++ env.osErr)]

/-- `runops`: allocate `sz` bytes; on failure print a diagnostic and
return -1; on success touch the buffer, print `OK` and return 0. -/
def runops (env : Env) (sz : Nat) : Res Int :=
  if env.mallocOk = true then
    Res.bind (Res.emit (Ev.alloc sz)) (fun _ =>
    Res.bind (Res.emit (Ev.out (toString (sz / 2 ^ 20) ++ " MiB: OK"))) (fun _ =>
    Res.pure 0))
  else
    Res.bind (Res.emit (Ev.err ("Cannot alloc memory, " ++ toString (sz / 2 ^ 20) ++
      " MiB: " ++ env.osErr))) (fun _ =>
    Res.pure (-1))

/-- `doit`: PAPI library/thread init, create the event set, prepare it,
start it, then one reset → runops → read → report cycle, then shutdown. -/
def doit (env : Env) (argv0 : String) (myrank : Nat) (names : List String) :
    Res Unit :=
  Res.bind
    (if env.libInitOk = false then complain argv0 myrank 1 false "PAPI Init failed"
     else Res.pure ()) (fun _ =>
  Res.bind (papiCheck env argv0 myrank env.threadInitOk "thread init") (fun _ =>
  Res.bind (Res.emit Ev.papiCreate) (fun _ =>
  Res.bind (papiCheck env argv0 myrank env.createOk "create event set") (fun _ =>
  Res.bind (PAPI_prepare env argv0 myrank names) (fun codes =>
  Res.bind (PAPI_run env argv0 myrank) (fun _ =>
  Res.bind (PAPI_clear env argv0 myrank) (fun _ =>
  Res.bind (runops env (2 ^ 20)) (fun _ =>
  Res.bind (PAPI_fetch env argv0 myrank codes) (fun value =>
  Res.bind (report names value) (fun _ =>
  Res.emit Ev.papiShutdown))))))))))

/-- The stdout banner lines `main` prints on rank 0 only: event list,
rank/size/timeout configuration, blank line. -/
def bannerStrings (myrank : Nat) (names : List String) (size : Nat) (t : Int) :
    List String :=
  if myrank = 0 then
    "== Events:" ::
    (names.map (fun nm => " > " ++ nm) ++
     ["", "== Program options:",
      " > MPI_rank   = " ++ toString myrank,
      " > MPI_size   = " ++ toString size,
      " > timeout    = " ++ toString t ++ " secs",
      ""])
  else []

/-- The banner as stdout events. -/
def bannerEvs (myrank : Nat) (names : List String) (size : Nat) (t : Int) :
    List Ev :=
  (bannerStrings myrank names size t).map Ev.out

/-- `main` minus the asynchronous alarm: MPI init, rank/size discovery,
option processing, banner, alarm arming, `doit`, barrier, finalize. -/
def mainNoAlarm (env : Env) (argv0 : String) (myrank : Nat) (cl : Cmdline) :
    Res Unit :=
  Res.bind
    (if env.mpiInitOk = false then
       complain argv0 0 1 true "MPI_Init failed.  MPI is required."
     else Res.pure ()) (fun _ =>
  Res.bind
    (if env.rankOk = false then
       complain argv0 myrank 1 false "unable to get MPI rank"
     else Res.pure ()) (fun _ =>
  Res.bind
    (if env.sizeOk = false then
       complain argv0 myrank 1 false "unable to get MPI size"
     else Res.pure ()) (fun _ =>
  Res.bind
    (match cl.tArg with
     | none => Res.pure ()
     | some s =>
       if atoi s < 0 then usage argv0 myrank (some "bad timeout")
       else Res.pure ()) (fun _ =>
  Res.bind
    (if cl.badFlag = true then usage argv0 myrank none else Res.pure ())
    (fun _ =>
  Res.bind (Res.ok () (bannerEvs myrank (effNames cl) env.size (timeoutOf cl)))
    (fun _ =>
  Res.bind (Res.emit (Ev.alarmSet (timeoutOf cl))) (fun _ =>
  Res.bind (doit env argv0 myrank (effNames cl)) (fun _ =>
  Res.bind (Res.emit Ev.mpiBarrier) (fun _ =>
  Res.emit Ev.mpiFinalize)))))))))

/-- The events `sigalarm` emits before exiting 1: two stderr lines and
`MPI_Finalize`. -/
def sigalarmEvs (myrank : Nat) : List Ev :=
  [Ev.err ("SIGALRM detected (" ++ toString myrank ++ ")"),
   Ev.err "Alarm clock", Ev.mpiFinalize]

/-- Whether an alarm with a positive timeout has been armed before trace
position `k` (an `alarm(0)` call cancels rather than arms). -/
def armedPositive (tr : List Ev) (k : Nat) : Bool :=
  (List.range k).any (fun i =>
    match tr.get? i with
    | some (Ev.alarmSet t) => decide (0 < t)
    | _ => false)

/-- Deliver `SIGALRM` just before trace position `k` of the uninterrupted
run, if the process is still running there and a positive alarm is armed:
the handler prints, finalizes MPI and exits 1.  `none` means the timer
never fires. -/
def interrupt (myrank : Nat) (r : Res Unit) (fire : Option Nat) : Res Unit :=
  match fire with
  | none => r
  | some k =>
    if armedPositive (traceOf r) k = true ∧ k < (traceOf r).length then
      Res.exited 1 ((traceOf r).take k ++ sigalarmEvs myrank)
    else r

/-- One full run of the program at a given rank, with the watchdog
optionally firing before trace position `fire`. -/
def papiTry (env : Env) (argv0 : String) (myrank : Nat) (cl : Cmdline)
    (fire : Option Nat) : Res Unit :=
  interrupt myrank (mainNoAlarm env argv0 myrank cl) fire

/-- The counter sample of a successful pass: one value per event name, in
specification order. -/
def sample (env : Env) (names : List String) : List Int :=
  (resolvedCodes env names).map env.counterOf

/-- The rank-independent part of a successful run's trace: everything
after the banner. -/
def afterBanner (env : Env) (cl : Cmdline) : List Ev :=
  Ev.alarmSet (timeoutOf cl) ::
  Ev.papiCreate ::
  Ev.papiAdd (resolvedCodes env (effNames cl)) ::
  Ev.papiStart ::
  Ev.papiReset ::
  (runopsTrace env (2 ^ 20) ++
   Ev.papiRead ::
   (reportTrace (effNames cl) (sample env (effNames cl)) ++
    [Ev.papiShutdown, Ev.mpiBarrier, Ev.mpiFinalize]))

/-- The whole trace of a successful (uninterrupted, all-subsystems-OK)
run at a given rank. -/
def successTrace (env : Env) (myrank : Nat) (cl : Cmdline) : List Ev :=
  bannerEvs myrank (effNames cl) env.size (timeoutOf cl) ++ afterBanner env cl

/-- All external-subsystem calls succeed (malloc left unconstrained). -/
def okEnvP (env : Env) : Prop :=
  env.mpiInitOk = true ∧ env.rankOk = true ∧ env.sizeOk = true ∧
  env.libInitOk = true ∧ env.threadInitOk = Except.ok () ∧
  env.createOk = Except.ok () ∧ env.addOk = Except.ok () ∧
  env.startOk = Except.ok () ∧ env.resetOk = Except.ok () ∧
  env.readOk = Except.ok ()

/-- Every name of the list is recognized by the counter subsystem. -/
def resolvesAll (env : Env) (names : List String) : Prop :=
  ∀ nm ∈ names, ∃ c, env.nameToCode nm = Except.ok c

/-- Whether an event is one of the counter-group operations. -/
def isPapiOp : Ev → Bool
  | .papiCreate => true
  | .papiAdd _ => true
  | .papiStart => true
  | .papiReset => true
  | .papiRead => true
  | .papiShutdown => true
  | _ => false

/-- The counter-group operations of a trace, in order. -/
def papiOps (tr : List Ev) : List Ev := tr.filter isPapiOp

/-- The legal complete order of counter-group operations:
create → populate → start → reset → read → shutdown. -/
def papiOrder (codes : List Int) : List Ev :=
  [Ev.papiCreate, Ev.papiAdd codes, Ev.papiStart, Ev.papiReset,
   Ev.papiRead, Ev.papiShutdown]

/-- An environment in which every subsystem call succeeds, every event
name resolves to code 11, and every counter reads 42. -/
def envOk : Env where
  nameToCode := fun _ => Except.ok 11
  libInitOk := true
  threadInitOk := Except.ok ()
  createOk := Except.ok ()
  addOk := Except.ok ()
  startOk := Except.ok ()
  resetOk := Except.ok ()
  readOk := Except.ok ()
  counterOf := fun _ => 42
  strerror := fun _ => "Event does not exist"
  mallocOk := true
  osErr := "Cannot allocate memory"
  mpiInitOk := true
  rankOk := true
  sizeOk := true
  size := 2

/-- `envOk` but the counter subsystem rejects `BAD_EVENT_NAME`. -/
def envBad : Env :=
  { envOk with
    nameToCode := fun nm =>
      if nm == "BAD_EVENT_NAME" then Except.error (-7) else Except.ok 11 }

/-- `envOk` but `malloc` fails. -/
def envNoMem : Env := { envOk with mallocOk := false }

/-- `envOk` but `MPI_Comm_rank` fails. -/
def envRankFail : Env := { envOk with rankOk := false }

/-- The default command line: no `-t`, no bad flag, no positional
arguments. -/
def cl0 : Cmdline := ⟨none, false, []⟩

/-- A command line with the single positional argument
`BAD_EVENT_NAME`. -/
def clBad : Cmdline := ⟨none, false, ["BAD_EVENT_NAME"]⟩

/-- Events of a successful pass that precede the counter read. -/
def preReadTrace (env : Env) (myrank : Nat) (cl : Cmdline) : List Ev :=
  bannerEvs myrank (effNames cl) env.size (timeoutOf cl) ++
  [Ev.alarmSet (timeoutOf cl), Ev.papiCreate,
   Ev.papiAdd (resolvedCodes env (effNames cl)), Ev.papiStart, Ev.papiReset] ++
  runopsTrace env (2 ^ 20)

/-- Events of a successful pass that follow the counter read: the report
block, shutdown, barrier, finalize. -/
def postReadTrace (env : Env) (cl : Cmdline) : List Ev :=
  reportTrace (effNames cl) (sample env (effNames cl)) ++
  [Ev.papiShutdown, Ev.mpiBarrier, Ev.mpiFinalize]

/-- Predicate on events: any alarm-arming event carries exactly the
value `v`. -/
def AlarmAt (v : Int) (e : Ev) : Prop := ∀ t, e = Ev.alarmSet t → t = v

/-- Every event of the computation's trace satisfies `P`. -/
def TraceAll (P : Ev → Prop) (r : Res α) : Prop := ∀ e ∈ traceOf r, P e

/-- Invariant for the counter-group operation order: a computation whose
trace's PAPI operations are exactly `full` on normal return and a prefix
of `full` if it exits early. -/
def OpsProgress (r : Res α) (full : List Ev) : Prop :=
  (∀ c tr, r = Res.exited c tr → papiOps tr <+: full) ∧
  (∀ a tr, r = Res.ok a tr → papiOps tr = full)

/-- Invariant for fatal exits: whenever the computation exits, the exit
code is 1 and the last emitted event is `MPI_Finalize`. -/
def FatalShape (r : Res α) : Prop :=
  ∀ c tr, r = Res.exited c tr → c = 1 ∧ tr.getLast? = some Ev.mpiFinalize
/-- When every name resolves, the resolution loop returns the codes in
specification order and emits nothing. -/
theorem resolveNames_ok (env : Env) (argv0 : String) (myrank : Nat)
    (names : List String) (h : resolvesAll env names) :
    resolveNames env argv0 myrank names = Res.ok (resolvedCodes env names) [] := by
  induction names with
  | nil => rfl
  | cons nm rest ih =>
    obtain ⟨c, hc⟩ := h nm (by simp)
    have hr := ih (fun x hx => h x (by simp [hx]))
    simp [resolveNames, hc, hr, resolvedCodes, codeOf, Res.pure]

/-- The first rejected name is in the list and is rejected. -/
theorem firstRejected_spec (env : Env) (names : List String) (nm : String)
    (rv : Int) (h : firstRejected env names = some (nm, rv)) :
    nm ∈ names ∧ env.nameToCode nm = Except.error rv := by
  induction names with
  | nil => simp [firstRejected] at h
  | cons x rest ih =>
    by_cases hx : ∃ c, env.nameToCode x = Except.ok c
    · obtain ⟨c, hc⟩ := hx
      rw [firstRejected, hc] at h
      obtain ⟨h1, h2⟩ := ih h
      exact ⟨by simp [h1], h2⟩
    · cases hxc : env.nameToCode x with
      | ok c => exact absurd ⟨c, hxc⟩ hx
      | error rv2 =>
        rw [firstRejected, hxc] at h
        obtain ⟨rfl, rfl⟩ : x = nm ∧ rv2 = rv := by
          constructor <;> · injection h with h2; injection h2
        exact ⟨by simp, hxc⟩

/-- A rejected member forces the loop to hit a first rejected name. -/
theorem firstRejected_isSome (env : Env) (names : List String) (nm : String)
    (rv : Int) (hmem : nm ∈ names) (hbad : env.nameToCode nm = Except.error rv) :
    ∃ nm2 rv2, firstRejected env names = some (nm2, rv2) := by
  induction names with
  | nil => simp at hmem
  | cons x rest ih =>
    cases hxc : env.nameToCode x with
    | ok c =>
      have hxne : x ≠ nm := fun he => by rw [he, hbad] at hxc; cases hxc
      have : nm ∈ rest := by
        rcases List.mem_cons.1 hmem with h | h
        · exact absurd h.symm hxne
        · exact h
      obtain ⟨nm2, rv2, h2⟩ := ih this
      exact ⟨nm2, rv2, by rw [firstRejected, hxc]; exact h2⟩
    | error rv2 => exact ⟨x, rv2, by rw [firstRejected, hxc]⟩

/-- On a rejected name, the resolution loop prints the `PAPI <name>:
<reason>` diagnostic, finalizes MPI and exits 1. -/
theorem resolveNames_rejected (env : Env) (argv0 : String) (myrank : Nat)
    (names : List String) (nm : String) (rv : Int)
    (h : firstRejected env names = some (nm, rv)) :
    resolveNames env argv0 myrank names =
      Res.exited 1 [Ev.err (argv0 ++ ": " ++ ("PAPI " ++ nm ++ ": " ++ env.strerror rv)),
                    Ev.mpiFinalize] := by
  induction names with
  | nil => simp [firstRejected] at h
  | cons x rest ih =>
    cases hxc : env.nameToCode x with
    | ok c =>
      rw [firstRejected, hxc] at h
      simp [resolveNames, hxc, ih h]
    | error rv2 =>
      rw [firstRejected, hxc] at h
      obtain ⟨rfl, rfl⟩ : x = nm ∧ rv2 = rv := by
        constructor <;> · injection h with h2; injection h2
      simp [resolveNames, hxc, PAPI_complain, complain, vcomplain, Res.emit,
        Res.pure, Res.exitProc, String.append_assoc]

/-- `runops` always returns normally, with the events of `runopsTrace`. -/
theorem runops_eq (env : Env) (sz : Nat) :
    runops env sz =
      Res.ok (if env.mallocOk = true then 0 else -1) (runopsTrace env sz) := by
  cases hm : env.mallocOk <;>
    simp [runops, runopsTrace, hm, Res.emit, Res.pure]

/-- A run in which every subsystem call succeeds and every event name
resolves returns normally (exit code 0) with exactly the events of
`successTrace`. -/
theorem success_run (env : Env) (argv0 : String) (myrank : Nat) (cl : Cmdline)
    (h : okEnvP env) (hres : resolvesAll env (effNames cl))
    (hb : cl.badFlag = false) (ht : 0 ≤ timeoutOf cl) :
    mainNoAlarm env argv0 myrank cl = Res.ok () (successTrace env myrank cl) := by
  obtain ⟨h1, h2, h3, h4, h5, h6, h7, h8, h9, h10⟩ := h
  have hr := resolveNames_ok env argv0 myrank (effNames cl) hres
  cases htA : cl.tArg with
  | none =>
    simp [mainNoAlarm, h1, h2, h3, h4, h5, h6, h7, h8, h9, h10, hb, htA,
      doit, PAPI_prepare, hr, PAPI_run, PAPI_clear, PAPI_fetch, papiCheck,
      runops_eq, report, successTrace, afterBanner, sample, Res.emit, Res.pure,
      reportTrace]
  | some s =>
    have hts : timeoutOf cl = atoi s := by simp [timeoutOf, htA]
    have hnneg : ¬ (atoi s < 0) := not_lt.2 (by rw [hts] at ht; exact_mod_cast ht)
    simp [mainNoAlarm, h1, h2, h3, h4, h5, h6, h7, h8, h9, h10, hb, htA, hnneg,
      doit, PAPI_prepare, hr, PAPI_run, PAPI_clear, PAPI_fetch, papiCheck,
      runops_eq, report, successTrace, afterBanner, sample, Res.emit, Res.pure,
      reportTrace]

/-- Every banner event is a stdout line. -/
theorem bannerEvs_out (myrank : Nat) (names : List String) (size : Nat)
    (t : Int) (e : Ev) (he : e ∈ bannerEvs myrank names size t) :
    ∃ s, e = Ev.out s := by
  obtain ⟨s, _, rfl⟩ := List.mem_map.1 he
  exact ⟨s, rfl⟩

/-- On a non-zero rank the banner is empty. -/
theorem bannerEvs_ne_zero (myrank : Nat) (names : List String) (size : Nat)
    (t : Int) (h : myrank ≠ 0) : bannerEvs myrank names size t = [] := by
  simp [bannerEvs, bannerStrings, h]

/-- C1: if the counter subsystem rejects an event name of the list, the
run (on every rank, given the shared subsystem behavior) prints a `PAPI
<event>: <reason>` diagnostic naming the first rejected event of the list,
finalizes MPI and exits with code 1; the counter read never happens, so no
rank emits a report (the trace ends right after the diagnostic). -/
theorem C1_unknown_event_fatal (env : Env) (argv0 : String) (myrank : Nat)
    (cl : Cmdline) (name : String) (rv : Int)
    (h1 : env.mpiInitOk = true) (h2 : env.rankOk = true) (h3 : env.sizeOk = true)
    (h4 : env.libInitOk = true) (h5 : env.threadInitOk = Except.ok ())
    (h6 : env.createOk = Except.ok ())
    (hb : cl.badFlag = false) (ht : 0 ≤ timeoutOf cl)
    (hmem : name ∈ effNames cl) (hbad : env.nameToCode name = Except.error rv) :
    ∃ nm2 rv2, nm2 ∈ effNames cl ∧ env.nameToCode nm2 = Except.error rv2 ∧
      papiTry env argv0 myrank cl none =
        Res.exited 1
          (bannerEvs myrank (effNames cl) env.size (timeoutOf cl) ++
           [Ev.alarmSet (timeoutOf cl), Ev.papiCreate,
            Ev.err (argv0 ++ ": " ++ ("PAPI " ++ nm2 ++ ": " ++ env.strerror rv2)),
            Ev.mpiFinalize]) ∧
      Ev.papiRead ∉ traceOf (papiTry env argv0 myrank cl none) ∧
      exitCode (papiTry env argv0 myrank cl none) = 1 := by
  obtain ⟨nm2, rv2, hfr⟩ := firstRejected_isSome env (effNames cl) name rv hmem hbad
  obtain ⟨hm2, hb2⟩ := firstRejected_spec env (effNames cl) nm2 rv2 hfr
  have hrej := resolveNames_rejected env argv0 myrank (effNames cl) nm2 rv2 hfr
  have heq : papiTry env argv0 myrank cl none =
      Res.exited 1
        (bannerEvs myrank (effNames cl) env.size (timeoutOf cl) ++
         [Ev.alarmSet (timeoutOf cl), Ev.papiCreate,
          Ev.err (argv0 ++ ": " ++ ("PAPI " ++ nm2 ++ ": " ++ env.strerror rv2)),
          Ev.mpiFinalize]) := by
    cases htA : cl.tArg with
    | none =>
      simp [papiTry, interrupt, mainNoAlarm, h1, h2, h3, h4, h5, h6, hb, htA,
        doit, PAPI_prepare, hrej, papiCheck, Res.emit, Res.pure]
    | some s =>
      have hts : timeoutOf cl = atoi s := by simp [timeoutOf, htA]
      have hnneg : ¬ (atoi s < 0) := not_lt.2 (by rw [hts] at ht; exact_mod_cast ht)
      simp [papiTry, interrupt, mainNoAlarm, h1, h2, h3, h4, h5, h6, hb, htA,
        hnneg, doit, PAPI_prepare, hrej, papiCheck, Res.emit, Res.pure]
  refine ⟨nm2, rv2, hm2, hb2, heq, ?_, by rw [heq]; rfl⟩
  rw [heq]
  intro hin
  rcases List.mem_append.1 hin with hc | hc
  · obtain ⟨s, hs⟩ := bannerEvs_out _ _ _ _ _ hc
    cases hs
  · simp at hc

/-- C1 witness: the end-to-end scenario with the single positional
argument `BAD_EVENT_NAME`, which the subsystem rejects, at rank 0. -/
theorem C1_witness :
    ∃ nm2 rv2, nm2 ∈ effNames clBad ∧ envBad.nameToCode nm2 = Except.error rv2 ∧
      papiTry envBad "papi-try" 0 clBad none =
        Res.exited 1
          (bannerEvs 0 (effNames clBad) envBad.size (timeoutOf clBad) ++
           [Ev.alarmSet (timeoutOf clBad), Ev.papiCreate,
            Ev.err ("papi-try" ++ ": " ++
              ("PAPI " ++ nm2 ++ ": " ++ envBad.strerror rv2)),
            Ev.mpiFinalize]) ∧
      Ev.papiRead ∉ traceOf (papiTry envBad "papi-try" 0 clBad none) ∧
      exitCode (papiTry envBad "papi-try" 0 clBad none) = 1 :=
  C1_unknown_event_fatal envBad "papi-try" 0 clBad "BAD_EVENT_NAME" (-7)
    rfl rfl rfl rfl rfl rfl rfl (by decide) (by decide) rfl

/-- Closed form of `vcomplain`. -/
theorem vcomplain_eq (argv0 : String) (myrank ret : Nat) (r0 : Bool)
    (msg : String) :
    vcomplain argv0 myrank ret r0 msg =
      if ret ≠ 0 then
        Res.exited ret
          ((if r0 = false ∨ myrank = 0 then [Ev.err (argv0 ++ ": " ++ msg)]
            else []) ++ [Ev.mpiFinalize])
      else
        Res.ok ()
          (if r0 = false ∨ myrank = 0 then [Ev.err (argv0 ++ ": " ++ msg)]
           else []) := by
  by_cases hA : r0 = false ∨ myrank = 0 <;> by_cases hB : ret ≠ 0 <;>
    simp [vcomplain, hA, hB, Res.emit, Res.pure, Res.exitProc]

/-- Closed form of `usage`. -/
theorem usage_eq (argv0 : String) (myrank : Nat) (msg : Option String) :
    usage argv0 myrank msg =
      Res.exited 1 ((if myrank = 0 then usageMsgEvs argv0 msg else []) ++
        [Ev.mpiFinalize]) := by
  by_cases h : myrank = 0 <;> simp [usage, h, Res.emit, Res.exitProc]


/-- A successful resolution loop returns exactly the codes of the names,
with no events. -/
theorem resolveNames_ok_val (env : Env) (argv0 : String) (myrank : Nat)
    (names : List String) (codes : List Int) (tr : List Ev)
    (h : resolveNames env argv0 myrank names = Res.ok codes tr) :
    codes = resolvedCodes env names ∧ tr = [] := by
  induction names generalizing codes tr with
  | nil =>
    rw [resolveNames, Res.pure] at h
    cases h
    exact ⟨rfl, rfl⟩
  | cons nm rest ih =>
    cases hc : env.nameToCode nm with
    | ok c =>
      rw [resolveNames, hc] at h
      cases hrest : resolveNames env argv0 myrank rest with
      | exited c2 tr2 => rw [hrest] at h; cases h
      | ok cs tr2 =>
        rw [hrest] at h
        simp [Res.pure] at h
        obtain ⟨h1, h2⟩ := ih cs tr2 hrest
        obtain ⟨rfl, rfl⟩ := h
        simp [resolvedCodes, codeOf, hc, h2]
        simpa [resolvedCodes] using h1
    | error rv =>
      rw [resolveNames, hc] at h
      simp [PAPI_complain, complain, vcomplain_eq] at h

/-- Every name list either resolves completely or has a first rejected
name. -/
theorem resolve_total (env : Env) (names : List String) :
    resolvesAll env names ∨ ∃ nm rv, firstRejected env names = some (nm, rv) := by
  induction names with
  | nil => exact Or.inl (fun nm h => by simp at h)
  | cons x rest ih =>
    cases hc : env.nameToCode x with
    | ok c =>
      cases ih with
      | inl h =>
        refine Or.inl (fun nm hm => ?_)
        rcases List.mem_cons.1 hm with rfl | hm2
        · exact ⟨c, hc⟩
        · exact h nm hm2
      | inr h =>
        obtain ⟨nm, rv, hf⟩ := h
        exact Or.inr ⟨nm, rv, by rw [firstRejected, hc]; exact hf⟩
    | error rv => exact Or.inr ⟨x, rv, by rw [firstRejected, hc]⟩

theorem opsProgress_cast {r : Res α} {A B : List Ev} (h : OpsProgress r A)
    (he : A = B) : OpsProgress r B := he ▸ h

theorem opsProgress_exited (c : Nat) (tr full : List Ev)
    (h : papiOps tr <+: full) : OpsProgress (Res.exited c tr : Res α) full :=
  ⟨fun _ _ h2 => by cases h2; exact h, fun _ _ h2 => Res.noConfusion h2⟩

theorem opsProgress_okTrace (a : α) (tr full : List Ev)
    (h : papiOps tr = full) : OpsProgress (Res.ok a tr) full :=
  ⟨fun _ _ h2 => Res.noConfusion h2, fun _ _ h2 => by cases h2; exact h⟩

theorem opsProgress_pure (a : α) : OpsProgress (Res.pure a) [] :=
  opsProgress_okTrace a [] [] rfl

theorem opsProgress_bind {m : Res α} {f : α → Res β} {A B : List Ev}
    (hm : OpsProgress m A)
    (hf : ∀ a tr, m = Res.ok a tr → OpsProgress (f a) B) :
    OpsProgress (Res.bind m f) (A ++ B) := by
  obtain ⟨hmE, hmO⟩ := hm
  cases m with
  | exited c2 tr2 =>
    refine opsProgress_exited c2 tr2 _ ?_
    obtain ⟨t, ht⟩ := hmE c2 tr2 rfl
    exact ⟨t ++ B, by rw [← List.append_assoc, ht]⟩
  | ok a2 tr2 =>
    have hA := hmO a2 tr2 rfl
    obtain ⟨hfE, hfO⟩ := hf a2 tr2 rfl
    rw [Res.bind_ok]
    cases hfa : f a2 with
    | exited c3 tr3 =>
      refine opsProgress_exited c3 (tr2 ++ tr3) _ ?_
      obtain ⟨t, ht⟩ := hfE c3 tr3 hfa
      exact ⟨t, by rw [papiOps, List.filter_append, ← papiOps, ← papiOps, hA,
        List.append_assoc, ht]⟩
    | ok b tr3 =>
      refine opsProgress_okTrace b (tr2 ++ tr3) _ ?_
      rw [papiOps, List.filter_append, ← papiOps, ← papiOps, hA, hfO b tr3 hfa]

theorem opsProgress_emitNon (e : Ev) (h : isPapiOp e = false) :
    OpsProgress (Res.emit e) [] :=
  opsProgress_okTrace () [e] [] (by simp [papiOps, List.filter, h])

theorem opsProgress_emitOp (e : Ev) (h : isPapiOp e = true) :
    OpsProgress (Res.emit e) [e] :=
  opsProgress_okTrace () [e] [e] (by simp [papiOps, List.filter, h])

theorem opsProgress_vcomplain (argv0 : String) (myrank ret : Nat) (r0 : Bool)
    (msg : String) : OpsProgress (vcomplain argv0 myrank ret r0 msg) [] := by
  rw [vcomplain_eq]
  split
  · refine opsProgress_exited _ _ _ ⟨[], ?_⟩
    rw [List.append_nil, papiOps, List.filter_eq_nil]
    intro e he
    rcases List.mem_append.1 he with hc | hc
    · split at hc
      · simp at hc; simp [hc, isPapiOp]
      · simp at hc
    · simp at hc; simp [hc, isPapiOp]
  · refine opsProgress_okTrace _ _ _ ?_
    rw [papiOps, List.filter_eq_nil]
    intro e he
    split at he
    · simp at he; simp [he, isPapiOp]
    · simp at he

theorem opsProgress_complain (argv0 : String) (myrank ret : Nat) (r0 : Bool)
    (msg : String) : OpsProgress (complain argv0 myrank ret r0 msg) [] :=
  opsProgress_vcomplain argv0 myrank ret r0 msg

theorem opsProgress_papiCheck (env : Env) (argv0 : String) (myrank : Nat)
    (r : Except Int Unit) (msg : String) :
    OpsProgress (papiCheck env argv0 myrank r msg) [] := by
  cases r with
  | ok a => exact opsProgress_pure ()
  | error rv =>
    exact opsProgress_vcomplain argv0 myrank 1 false
      ("PAPI " ++ msg ++ ": " ++ env.strerror rv)

/-- Every usage line is a stderr event. -/
theorem usageMsgEvs_err (argv0 : String) (msg : Option String) (e : Ev)
    (he : e ∈ usageMsgEvs argv0 msg) : ∃ s, e = Ev.err s := by
  cases msg with
  | none =>
    simp [usageMsgEvs] at he
    rcases he with rfl | rfl | rfl <;> exact ⟨_, rfl⟩
  | some m =>
    simp [usageMsgEvs] at he
    rcases he with rfl | rfl | rfl | rfl <;> exact ⟨_, rfl⟩

theorem opsProgress_usage (argv0 : String) (myrank : Nat)
    (msg : Option String) : OpsProgress (usage argv0 myrank msg) [] := by
  rw [usage_eq]
  refine opsProgress_exited _ _ _ ⟨[], ?_⟩
  rw [List.append_nil, papiOps, List.filter_eq_nil]
  intro e he
  rcases List.mem_append.1 he with hc | hc
  · split at hc
    · obtain ⟨s, rfl⟩ := usageMsgEvs_err argv0 msg e hc
      simp [isPapiOp]
    · simp at hc
  · simp at hc; simp [hc, isPapiOp]

theorem opsProgress_resolve (env : Env) (argv0 : String) (myrank : Nat)
    (names : List String) :
    OpsProgress (resolveNames env argv0 myrank names) [] := by
  cases resolve_total env names with
  | inl h =>
    rw [resolveNames_ok env argv0 myrank names h]
    exact opsProgress_okTrace _ [] [] rfl
  | inr h =>
    obtain ⟨nm, rv, hf⟩ := h
    rw [resolveNames_rejected env argv0 myrank names nm rv hf]
    exact opsProgress_exited _ _ _ ⟨[], by simp [papiOps, isPapiOp]⟩

theorem opsProgress_prepare (env : Env) (argv0 : String) (myrank : Nat)
    (names : List String) :
    OpsProgress (PAPI_prepare env argv0 myrank names)
      [Ev.papiAdd (resolvedCodes env names)] := by
  have key : ∀ codes tr, resolveNames env argv0 myrank names = Res.ok codes tr →
      OpsProgress
        (Res.bind (Res.emit (Ev.papiAdd codes)) (fun _ =>
          Res.bind (papiCheck env argv0 myrank env.addOk "add events")
            (fun _ => Res.pure codes)))
        [Ev.papiAdd (resolvedCodes env names)] := by
    intro codes tr hok
    obtain ⟨hcv, _⟩ := resolveNames_ok_val env argv0 myrank names codes tr hok
    subst hcv
    have h := opsProgress_bind (opsProgress_emitOp (Ev.papiAdd (resolvedCodes env names)) rfl)
      (fun _ _ _ => opsProgress_bind
        (opsProgress_papiCheck env argv0 myrank env.addOk "add events")
        (fun _ _ _ => opsProgress_pure (resolvedCodes env names)))
    simpa using h
  have h := opsProgress_bind (opsProgress_resolve env argv0 myrank names) key
  simpa [PAPI_prepare] using h

theorem opsProgress_PAPI_run (env : Env) (argv0 : String) (myrank : Nat) :
    OpsProgress (PAPI_run env argv0 myrank) [Ev.papiStart] := by
  have h := opsProgress_bind (opsProgress_emitOp Ev.papiStart rfl)
    (fun _ _ _ => opsProgress_papiCheck env argv0 myrank env.startOk "start")
  simpa [PAPI_run] using h

theorem opsProgress_PAPI_clear (env : Env) (argv0 : String) (myrank : Nat) :
    OpsProgress (PAPI_clear env argv0 myrank) [Ev.papiReset] := by
  have h := opsProgress_bind (opsProgress_emitOp Ev.papiReset rfl)
    (fun _ _ _ => opsProgress_papiCheck env argv0 myrank env.resetOk "reset")
  simpa [PAPI_clear] using h

theorem opsProgress_PAPI_fetch (env : Env) (argv0 : String) (myrank : Nat)
    (codes : List Int) :
    OpsProgress (PAPI_fetch env argv0 myrank codes) [Ev.papiRead] := by
  have h := opsProgress_bind (opsProgress_emitOp Ev.papiRead rfl)
    (fun _ _ _ => opsProgress_bind
      (opsProgress_papiCheck env argv0 myrank env.readOk "read")
      (fun _ _ _ => opsProgress_pure (codes.map env.counterOf)))
  simpa [PAPI_fetch] using h

theorem opsProgress_runops (env : Env) (sz : Nat) :
    OpsProgress (runops env sz) [] := by
  rw [runops_eq]
  refine opsProgress_okTrace _ _ _ ?_
  unfold runopsTrace
  split <;> simp [papiOps, isPapiOp]

theorem opsProgress_report (names : List String) (value : List Int) :
    OpsProgress (report names value) [] := by
  refine opsProgress_okTrace _ _ _ ?_
  rw [papiOps, List.filter_eq_nil]
  intro e he
  rcases List.mem_cons.1 he with rfl | he2
  · simp [isPapiOp]
  rcases List.mem_append.1 he2 with hc | hc
  · obtain ⟨s, _, rfl⟩ := List.mem_map.1 hc
    simp [isPapiOp]
  · simp at hc; simp [hc, isPapiOp]

theorem opsProgress_doit (env : Env) (argv0 : String) (myrank : Nat)
    (names : List String) :
    OpsProgress (doit env argv0 myrank names)
      (papiOrder (resolvedCodes env names)) := by
  have hIf : OpsProgress
      (if env.libInitOk = false then
        complain argv0 myrank 1 false "PAPI Init failed"
       else Res.pure ()) [] := by
    split
    · exact opsProgress_complain argv0 myrank 1 false "PAPI Init failed"
    · exact opsProgress_pure ()
  have h := opsProgress_bind hIf (fun _ _ _ =>
    opsProgress_bind (opsProgress_papiCheck env argv0 myrank env.threadInitOk "thread init") (fun _ _ _ =>
    opsProgress_bind (opsProgress_emitOp Ev.papiCreate rfl) (fun _ _ _ =>
    opsProgress_bind (opsProgress_papiCheck env argv0 myrank env.createOk "create event set") (fun _ _ _ =>
    opsProgress_bind (opsProgress_prepare env argv0 myrank names) (fun codes _ _ =>
    opsProgress_bind (opsProgress_PAPI_run env argv0 myrank) (fun _ _ _ =>
    opsProgress_bind (opsProgress_PAPI_clear env argv0 myrank) (fun _ _ _ =>
    opsProgress_bind (opsProgress_runops env (2 ^ 20)) (fun _ _ _ =>
    opsProgress_bind (opsProgress_PAPI_fetch env argv0 myrank codes) (fun value _ _ =>
    opsProgress_bind (opsProgress_report names value) (fun _ _ _ =>
    opsProgress_emitOp Ev.papiShutdown rfl))))))))))
  simpa [doit, papiOrder] using h

theorem opsProgress_main (env : Env) (argv0 : String) (myrank : Nat)
    (cl : Cmdline) :
    OpsProgress (mainNoAlarm env argv0 myrank cl)
      (papiOrder (resolvedCodes env (effNames cl))) := by
  have hIf1 : OpsProgress
      (if env.mpiInitOk = false then
        complain argv0 0 1 true "MPI_Init failed.  MPI is required."
       else Res.pure ()) [] := by
    split
    · exact opsProgress_complain argv0 0 1 true "MPI_Init failed.  MPI is required."
    · exact opsProgress_pure ()
  have hIf2 : OpsProgress
      (if env.rankOk = false then
        complain argv0 myrank 1 false "unable to get MPI rank"
       else Res.pure ()) [] := by
    split
    · exact opsProgress_complain argv0 myrank 1 false "unable to get MPI rank"
    · exact opsProgress_pure ()
  have hIf3 : OpsProgress
      (if env.sizeOk = false then
        complain argv0 myrank 1 false "unable to get MPI size"
       else Res.pure ()) [] := by
    split
    · exact opsProgress_complain argv0 myrank 1 false "unable to get MPI size"
    · exact opsProgress_pure ()
  have hT : OpsProgress
      (match cl.tArg with
       | none => Res.pure ()
       | some s =>
         if atoi s < 0 then usage argv0 myrank (some "bad timeout")
         else Res.pure ()) [] := by
    rcases cl.tArg with _ | s
    · exact opsProgress_pure ()
    · by_cases hlt : atoi s < 0
      · simpa [hlt] using opsProgress_usage argv0 myrank (some "bad timeout")
      · simpa [hlt] using opsProgress_pure ()
  have hB : OpsProgress
      (if cl.badFlag = true then usage argv0 myrank none else Res.pure ()) [] := by
    split
    · exact opsProgress_usage argv0 myrank none
    · exact opsProgress_pure ()
  have hBan : OpsProgress
      (Res.ok () (bannerEvs myrank (effNames cl) env.size (timeoutOf cl))) [] := by
    refine opsProgress_okTrace _ _ _ ?_
    rw [papiOps, List.filter_eq_nil]
    intro e he
    obtain ⟨s, rfl⟩ := bannerEvs_out _ _ _ _ e he
    simp [isPapiOp]
  have h := opsProgress_bind hIf1 (fun _ _ _ =>
    opsProgress_bind hIf2 (fun _ _ _ =>
    opsProgress_bind hIf3 (fun _ _ _ =>
    opsProgress_bind hT (fun _ _ _ =>
    opsProgress_bind hB (fun _ _ _ =>
    opsProgress_bind hBan (fun _ _ _ =>
    opsProgress_bind (opsProgress_emitNon (Ev.alarmSet (timeoutOf cl)) rfl)
      (fun _ _ _ =>
    opsProgress_bind (opsProgress_doit env argv0 myrank (effNames cl))
      (fun _ _ _ =>
    opsProgress_bind (opsProgress_emitNon Ev.mpiBarrier rfl) (fun _ _ _ =>
    opsProgress_emitNon Ev.mpiFinalize rfl)))))))))
  simpa [mainNoAlarm] using h

/-- PAPI operations of a take are a prefix of the PAPI operations of the
whole trace. -/
theorem papiOps_take (tr : List Ev) (k : Nat) :
    papiOps (tr.take k) <+: papiOps tr :=
  ⟨papiOps (tr.drop k), by
    rw [papiOps, papiOps, papiOps, ← List.filter_append, List.take_append_drop]⟩

/-- The PAPI operations of the uninterrupted run's trace are a prefix of
the legal order. -/
theorem papiOps_main_front (env : Env) (argv0 : String) (myrank : Nat)
    (cl : Cmdline) :
    papiOps (traceOf (mainNoAlarm env argv0 myrank cl)) <+:
      papiOrder (resolvedCodes env (effNames cl)) := by
  have h := opsProgress_main env argv0 myrank cl
  cases hm : mainNoAlarm env argv0 myrank cl with
  | exited c tr => simpa using h.1 c tr hm
  | ok a tr =>
    rw [traceOf_ok, h.2 a tr hm]

/-- C7: in every execution (any subsystem behavior, any rank, any command
line, watchdog firing at any point or never), the counter-group
operations appearing in the trace form a prefix of
create → populate → start → reset → read → shutdown; in particular start
never precedes populate, and read or reset never precede start. -/
theorem C7_papi_op_order (env : Env) (argv0 : String) (myrank : Nat)
    (cl : Cmdline) (fire : Option Nat) :
    papiOps (traceOf (papiTry env argv0 myrank cl fire)) <+:
      papiOrder (resolvedCodes env (effNames cl)) := by
  cases fire with
  | none => exact papiOps_main_front env argv0 myrank cl
  | some k =>
    have hred : papiTry env argv0 myrank cl (some k) =
        if armedPositive (traceOf (mainNoAlarm env argv0 myrank cl)) k = true ∧
            k < (traceOf (mainNoAlarm env argv0 myrank cl)).length then
          Res.exited 1 ((traceOf (mainNoAlarm env argv0 myrank cl)).take k ++
            sigalarmEvs myrank)
        else mainNoAlarm env argv0 myrank cl := rfl
    rw [hred]
    split
    · rw [traceOf_exited, papiOps, List.filter_append, ← papiOps, ← papiOps]
      have hsig : papiOps (sigalarmEvs myrank) = [] := by
        simp [papiOps, sigalarmEvs, isPapiOp, List.filter]
      rw [hsig, List.append_nil]
      exact (papiOps_take _ k).trans (papiOps_main_front env argv0 myrank cl)
    · exact papiOps_main_front env argv0 myrank cl

theorem fatalShape_okAny (a : α) (tr : List Ev) : FatalShape (Res.ok a tr) :=
  fun _ _ h => Res.noConfusion h

theorem fatalShape_pure (a : α) : FatalShape (Res.pure a) := fatalShape_okAny a []

theorem fatalShape_emit (e : Ev) : FatalShape (Res.emit e) := fatalShape_okAny () [e]

theorem fatalShape_bind {m : Res α} {f : α → Res β}
    (hm : FatalShape m) (hf : ∀ a, FatalShape (f a)) :
    FatalShape (Res.bind m f) := by
  intro c tr h
  cases m with
  | exited c2 tr2 =>
    rw [Res.bind_exited] at h
    injection h with h1 h2
    obtain ⟨hc, hl⟩ := hm c2 tr2 rfl
    exact ⟨h1 ▸ hc, h2 ▸ hl⟩
  | ok a2 tr2 =>
    rw [Res.bind_ok] at h
    cases hfa : f a2 with
    | exited c3 tr3 =>
      rw [hfa, Res.withTrace_exited] at h
      injection h with h1 h2
      obtain ⟨hc, hl⟩ := hf a2 c3 tr3 hfa
      refine ⟨h1 ▸ hc, ?_⟩
      rw [← h2]
      have hne : tr3 ≠ [] := fun h0 => by rw [h0] at hl; cases hl
      rw [List.getLast?_append_of_ne_nil _ hne, hl]
    | ok b tr3 =>
      rw [hfa, Res.withTrace_ok] at h
      exact Res.noConfusion h

theorem fatalShape_vcomplain (argv0 : String) (myrank : Nat) (r0 : Bool)
    (msg : String) : FatalShape (vcomplain argv0 myrank 1 r0 msg) := by
  rw [vcomplain_eq]
  intro c tr h
  simp only [ne_eq, one_ne_zero, not_false_eq_true, if_true] at h
  cases h
  exact ⟨rfl, List.getLast?_concat _⟩

theorem fatalShape_papiCheck (env : Env) (argv0 : String) (myrank : Nat)
    (r : Except Int Unit) (msg : String) :
    FatalShape (papiCheck env argv0 myrank r msg) := by
  cases r with
  | ok a => exact fatalShape_pure ()
  | error rv =>
    exact fatalShape_vcomplain argv0 myrank false
      ("PAPI " ++ msg ++ ": " ++ env.strerror rv)

theorem fatalShape_usage (argv0 : String) (myrank : Nat)
    (msg : Option String) : FatalShape (usage argv0 myrank msg) := by
  rw [usage_eq]
  intro c tr h
  cases h
  exact ⟨rfl, List.getLast?_concat _⟩

theorem fatalShape_resolve (env : Env) (argv0 : String) (myrank : Nat)
    (names : List String) :
    FatalShape (resolveNames env argv0 myrank names) := by
  induction names with
  | nil => exact fatalShape_pure []
  | cons nm rest ih =>
    rw [resolveNames]
    cases env.nameToCode nm with
    | ok c => exact fatalShape_bind ih (fun cs => fatalShape_pure (c :: cs))
    | error rv =>
      exact fatalShape_bind
        (fatalShape_vcomplain argv0 myrank false
          ("PAPI " ++ nm ++ ": " ++ env.strerror rv))
        (fun _ => fatalShape_pure [])

theorem fatalShape_prepare (env : Env) (argv0 : String) (myrank : Nat)
    (names : List String) :
    FatalShape (PAPI_prepare env argv0 myrank names) :=
  fatalShape_bind (fatalShape_resolve env argv0 myrank names) (fun codes =>
    fatalShape_bind (fatalShape_emit (Ev.papiAdd codes)) (fun _ =>
      fatalShape_bind (fatalShape_papiCheck env argv0 myrank env.addOk "add events")
        (fun _ => fatalShape_pure codes)))

theorem fatalShape_runops (env : Env) (sz : Nat) :
    FatalShape (runops env sz) := by
  rw [runops_eq]
  exact fatalShape_okAny _ _

theorem fatalShape_doit (env : Env) (argv0 : String) (myrank : Nat)
    (names : List String) : FatalShape (doit env argv0 myrank names) := by
  have hIf : FatalShape
      (if env.libInitOk = false then
        complain argv0 myrank 1 false "PAPI Init failed"
       else Res.pure ()) := by
    split
    · exact fatalShape_vcomplain argv0 myrank false "PAPI Init failed"
    · exact fatalShape_pure ()
  exact fatalShape_bind hIf (fun _ =>
    fatalShape_bind (fatalShape_papiCheck env argv0 myrank env.threadInitOk "thread init") (fun _ =>
    fatalShape_bind (fatalShape_emit Ev.papiCreate) (fun _ =>
    fatalShape_bind (fatalShape_papiCheck env argv0 myrank env.createOk "create event set") (fun _ =>
    fatalShape_bind (fatalShape_prepare env argv0 myrank names) (fun codes =>
    fatalShape_bind (fatalShape_bind (fatalShape_emit Ev.papiStart) (fun _ =>
        fatalShape_papiCheck env argv0 myrank env.startOk "start")) (fun _ =>
    fatalShape_bind (fatalShape_bind (fatalShape_emit Ev.papiReset) (fun _ =>
        fatalShape_papiCheck env argv0 myrank env.resetOk "reset")) (fun _ =>
    fatalShape_bind (fatalShape_runops env (2 ^ 20)) (fun _ =>
    fatalShape_bind (fatalShape_bind (fatalShape_emit Ev.papiRead) (fun _ =>
        fatalShape_bind (fatalShape_papiCheck env argv0 myrank env.readOk "read")
          (fun _ => fatalShape_pure (codes.map env.counterOf)))) (fun value =>
    fatalShape_bind (fatalShape_okAny () (reportTrace names value)) (fun _ =>
    fatalShape_emit Ev.papiShutdown))))))))))

theorem fatalShape_main (env : Env) (argv0 : String) (myrank : Nat)
    (cl : Cmdline) : FatalShape (mainNoAlarm env argv0 myrank cl) := by
  have hIf1 : FatalShape
      (if env.mpiInitOk = false then
        complain argv0 0 1 true "MPI_Init failed.  MPI is required."
       else Res.pure ()) := by
    split
    · exact fatalShape_vcomplain argv0 0 true "MPI_Init failed.  MPI is required."
    · exact fatalShape_pure ()
  have hIf2 : FatalShape
      (if env.rankOk = false then
        complain argv0 myrank 1 false "unable to get MPI rank"
       else Res.pure ()) := by
    split
    · exact fatalShape_vcomplain argv0 myrank false "unable to get MPI rank"
    · exact fatalShape_pure ()
  have hIf3 : FatalShape
      (if env.sizeOk = false then
        complain argv0 myrank 1 false "unable to get MPI size"
       else Res.pure ()) := by
    split
    · exact fatalShape_vcomplain argv0 myrank false "unable to get MPI size"
    · exact fatalShape_pure ()
  have hT : FatalShape
      (match cl.tArg with
       | none => Res.pure ()
       | some s =>
         if atoi s < 0 then usage argv0 myrank (some "bad timeout")
         else Res.pure ()) := by
    rcases cl.tArg with _ | s
    · exact fatalShape_pure ()
    · by_cases hlt : atoi s < 0
      · simpa [hlt] using fatalShape_usage argv0 myrank (some "bad timeout")
      · simpa [hlt] using fatalShape_pure ()
  have hB : FatalShape
      (if cl.badFlag = true then usage argv0 myrank none else Res.pure ()) := by
    split
    · exact fatalShape_usage argv0 myrank none
    · exact fatalShape_pure ()
  exact fatalShape_bind hIf1 (fun _ =>
    fatalShape_bind hIf2 (fun _ =>
    fatalShape_bind hIf3 (fun _ =>
    fatalShape_bind hT (fun _ =>
    fatalShape_bind hB (fun _ =>
    fatalShape_bind (fatalShape_okAny ()
      (bannerEvs myrank (effNames cl) env.size (timeoutOf cl))) (fun _ =>
    fatalShape_bind (fatalShape_emit (Ev.alarmSet (timeoutOf cl))) (fun _ =>
    fatalShape_bind (fatalShape_doit env argv0 myrank (effNames cl)) (fun _ =>
    fatalShape_bind (fatalShape_emit Ev.mpiBarrier) (fun _ =>
    fatalShape_emit Ev.mpiFinalize)))))))))

theorem fatalShape_papiTry (env : Env) (argv0 : String) (myrank : Nat)
    (cl : Cmdline) (fire : Option Nat) :
    FatalShape (papiTry env argv0 myrank cl fire) := by
  cases fire with
  | none => exact fatalShape_main env argv0 myrank cl
  | some k =>
    have hred : papiTry env argv0 myrank cl (some k) =
        if armedPositive (traceOf (mainNoAlarm env argv0 myrank cl)) k = true ∧
            k < (traceOf (mainNoAlarm env argv0 myrank cl)).length then
          Res.exited 1 ((traceOf (mainNoAlarm env argv0 myrank cl)).take k ++
            sigalarmEvs myrank)
        else mainNoAlarm env argv0 myrank cl := rfl
    rw [hred]
    split
    · intro c tr h
      injection h with h1 h2
      refine ⟨h1.symm, ?_⟩
      rw [← h2, List.getLast?_append_of_ne_nil _ (by simp [sigalarmEvs])]
      rfl
    · exact fatalShape_main env argv0 myrank cl

/-- C9: on every exit path that goes through `exit` (usage error,
MPI failure, PAPI fatal error, watchdog expiry), the exit code is 1 and
the last observable action before the exit is `MPI_Finalize`, so the
coordination substrate is finalized before the process exits. -/
theorem C9_finalize_before_exit (env : Env) (argv0 : String) (myrank : Nat)
    (cl : Cmdline) (fire : Option Nat) (c : Nat) (tr : List Ev)
    (h : papiTry env argv0 myrank cl fire = Res.exited c tr) :
    c = 1 ∧ tr.getLast? = some Ev.mpiFinalize :=
  fatalShape_papiTry env argv0 myrank cl fire c tr h

/-- C9 witness: the fatal path where `MPI_Comm_rank` fails. -/
theorem C9_witness :
    (1 : Nat) = 1 ∧
      ([Ev.err ("papi-try" ++ ": " ++ "unable to get MPI rank"),
        Ev.mpiFinalize].getLast? = some Ev.mpiFinalize) :=
  C9_finalize_before_exit envRankFail "papi-try" 0 cl0 none 1
    [Ev.err ("papi-try" ++ ": " ++ "unable to get MPI rank"), Ev.mpiFinalize]
    (by decide)

/-- The successful trace splits at the read event. -/
theorem successTrace_split (env : Env) (myrank : Nat) (cl : Cmdline) :
    successTrace env myrank cl =
      preReadTrace env myrank cl ++ Ev.papiRead :: postReadTrace env cl := by
  simp [successTrace, afterBanner, preReadTrace, postReadTrace]

/-- Nothing before the read event is the read event. -/
theorem papiRead_not_preRead (env : Env) (myrank : Nat) (cl : Cmdline) :
    Ev.papiRead ∉ preReadTrace env myrank cl := by
  intro h
  rw [preReadTrace] at h
  rcases List.mem_append.1 h with h2 | h2
  · rcases List.mem_append.1 h2 with h3 | h3
    · obtain ⟨s, hs⟩ := bannerEvs_out _ _ _ _ _ h3
      cases hs
    · simp at h3
  · rw [runopsTrace] at h2
    split at h2 <;> simp at h2

/-- In the successful trace, a positive alarm is armed before any
position past the banner. -/
theorem armedPositive_success (env : Env) (myrank : Nat) (cl : Cmdline)
    (k : Nat) (ht : 0 < timeoutOf cl)
    (hk : (bannerEvs myrank (effNames cl) env.size (timeoutOf cl)).length < k) :
    armedPositive (successTrace env myrank cl) k = true := by
  rw [armedPositive, List.any_eq_true]
  refine ⟨(bannerEvs myrank (effNames cl) env.size (timeoutOf cl)).length,
    List.mem_range.2 hk, ?_⟩
  have hget : (successTrace env myrank cl).get?
      (bannerEvs myrank (effNames cl) env.size (timeoutOf cl)).length =
      some (Ev.alarmSet (timeoutOf cl)) := by
    rw [successTrace, List.get?_append_right (le_refl _)]
    simp [afterBanner]
  rw [hget]
  simpa using ht

/-- C2 counterexample: the claim says the group is aborted with exit
code 1 *before a final report is produced* whenever the timer fires
before the pass and final barrier complete.  Here the timer fires at
trace position 26 — after the report block but before the barrier event —
and the run exits 1 with the report lines already on stdout. -/
theorem C2_counterexample :
    exitCode (papiTry envOk "papi-try" 0 cl0 (some 26)) = 1 ∧
    Ev.out "PAPI_L1_DCM: 42" ∈ traceOf (papiTry envOk "papi-try" 0 cl0 (some 26)) ∧
    Ev.mpiBarrier ∉ traceOf (papiTry envOk "papi-try" 0 cl0 (some 26)) := by
  decide

/-- C2 amended: with a positive configured timeout and all subsystems
succeeding, (a) if the watchdog never fires the run returns normally
(exit code 0) with the full report trace, reaching the barrier; (b) if it
fires at any point after arming and before the run completes — the final
barrier included — the process exits 1 via the signal handler (on every
rank whose timer fires, hence the group); (c) if it fires no later than
the counter read, the read never happens, so no report is produced.  A
report may already have been emitted when the timer fires between the
report block and barrier completion, which is the one correction to the
claim as stated. -/
theorem C2_watchdog_amended (env : Env) (argv0 : String) (myrank : Nat)
    (cl : Cmdline) (h : okEnvP env) (hres : resolvesAll env (effNames cl))
    (hb : cl.badFlag = false) (ht : 0 < timeoutOf cl) :
    (papiTry env argv0 myrank cl none = Res.ok () (successTrace env myrank cl) ∧
     exitCode (papiTry env argv0 myrank cl none) = 0 ∧
     Ev.mpiBarrier ∈ successTrace env myrank cl) ∧
    (∀ k, (bannerEvs myrank (effNames cl) env.size (timeoutOf cl)).length < k →
      k < (successTrace env myrank cl).length →
      papiTry env argv0 myrank cl (some k) =
        Res.exited 1 ((successTrace env myrank cl).take k ++ sigalarmEvs myrank) ∧
      exitCode (papiTry env argv0 myrank cl (some k)) = 1) ∧
    (∀ k, (bannerEvs myrank (effNames cl) env.size (timeoutOf cl)).length < k →
      k ≤ (preReadTrace env myrank cl).length →
      Ev.papiRead ∉ traceOf (papiTry env argv0 myrank cl (some k))) := by
  have hmain := success_run env argv0 myrank cl h hres hb ht.le
  have htr : traceOf (mainNoAlarm env argv0 myrank cl) =
      successTrace env myrank cl := by rw [hmain]; rfl
  have habort : ∀ k,
      (bannerEvs myrank (effNames cl) env.size (timeoutOf cl)).length < k →
      k < (successTrace env myrank cl).length →
      papiTry env argv0 myrank cl (some k) =
        Res.exited 1 ((successTrace env myrank cl).take k ++ sigalarmEvs myrank) := by
    intro k hk1 hk2
    have hred : papiTry env argv0 myrank cl (some k) =
        if armedPositive (traceOf (mainNoAlarm env argv0 myrank cl)) k = true ∧
            k < (traceOf (mainNoAlarm env argv0 myrank cl)).length then
          Res.exited 1 ((traceOf (mainNoAlarm env argv0 myrank cl)).take k ++
            sigalarmEvs myrank)
        else mainNoAlarm env argv0 myrank cl := rfl
    rw [hred, htr,
      if_pos ⟨armedPositive_success env myrank cl k ht hk1, hk2⟩]
  refine ⟨⟨?_, ?_, ?_⟩, ?_, ?_⟩
  · show mainNoAlarm env argv0 myrank cl = Res.ok () (successTrace env myrank cl)
    exact hmain
  · show exitCode (mainNoAlarm env argv0 myrank cl) = 0
    rw [hmain]
    rfl
  · simp [successTrace, afterBanner]
  · intro k hk1 hk2
    exact ⟨habort k hk1 hk2, by rw [habort k hk1 hk2]; rfl⟩
  · intro k hk1 hk2
    have hlen : k < (successTrace env myrank cl).length := by
      rw [successTrace_split, List.length_append, List.length_cons]
      omega
    rw [habort k hk1 hlen, traceOf_exited]
    intro hin
    rcases List.mem_append.1 hin with hc | hc
    · have hc2 : Ev.papiRead ∈ (preReadTrace env myrank cl).take k := by
        rw [successTrace_split,
          List.take_append_of_le_length hk2] at hc
        exact hc
      exact papiRead_not_preRead env myrank cl (List.take_subset k _ hc2)
    · simp [sigalarmEvs] at hc

/-- C2 witness: the amended watchdog property at a concrete
all-successful environment, rank 0, default command line. -/
theorem C2_witness :
    (papiTry envOk "papi-try" 0 cl0 none = Res.ok () (successTrace envOk 0 cl0) ∧
     exitCode (papiTry envOk "papi-try" 0 cl0 none) = 0 ∧
     Ev.mpiBarrier ∈ successTrace envOk 0 cl0) ∧
    (∀ k, (bannerEvs 0 (effNames cl0) envOk.size (timeoutOf cl0)).length < k →
      k < (successTrace envOk 0 cl0).length →
      papiTry envOk "papi-try" 0 cl0 (some k) =
        Res.exited 1 ((successTrace envOk 0 cl0).take k ++ sigalarmEvs 0) ∧
      exitCode (papiTry envOk "papi-try" 0 cl0 (some k)) = 1) ∧
    (∀ k, (bannerEvs 0 (effNames cl0) envOk.size (timeoutOf cl0)).length < k →
      k ≤ (preReadTrace envOk 0 cl0).length →
      Ev.papiRead ∉ traceOf (papiTry envOk "papi-try" 0 cl0 (some k))) :=
  C2_watchdog_amended envOk "papi-try" 0 cl0
    ⟨rfl, rfl, rfl, rfl, rfl, rfl, rfl, rfl, rfl, rfl⟩
    (fun nm _ => ⟨11, rfl⟩) rfl (by decide)

/-- C3 counterexample: on the success path `runops` allocates the buffer,
prints the OK line and returns 0 — and its trace contains no release of
the allocated buffer (there is no `free` call anywhere in `runops`), so
the buffer is not released before returning. -/
theorem C3_counterexample :
    runops envOk (2 ^ 20) = Res.ok 0 [Ev.alloc (2 ^ 20), Ev.out "1 MiB: OK"] ∧
    Ev.alloc (2 ^ 20) ∈ traceOf (runops envOk (2 ^ 20)) ∧
    Ev.free (2 ^ 20) ∉ traceOf (runops envOk (2 ^ 20)) := by
  decide

/-- C3 amended: on the allocation-failure path `runops` returns holding
no acquired resource (no allocation happened), but on the success path
the buffer is never released by `runops`: it stays allocated when the
function returns (leaked until process exit). -/
theorem C3_runops_no_release (env : Env) (sz : Nat) :
    runops env sz =
      (if env.mallocOk = true then
        Res.ok 0 [Ev.alloc sz, Ev.out (toString (sz / 2 ^ 20) ++ " MiB: OK")]
       else
        Res.ok (-1) [Ev.err ("Cannot alloc memory, " ++ toString (sz / 2 ^ 20) ++
          " MiB: " ++ env.osErr)]) ∧
    (∀ m, Ev.free m ∉ traceOf (runops env sz)) := by
  constructor
  · rw [runops_eq, runopsTrace]
    split <;> rfl
  · intro m hin
    rw [runops_eq, traceOf_ok, runopsTrace] at hin
    split at hin <;> simp at hin

/-- C4: the copy loop `for (i = 0; i < argc; i++) g.names[i] = argv[i];`
has no bound check against `MAX_EVENTS`: with 17 positional arguments it
writes index 16, one past the end of the 16-slot `g.names` array (and
sets `g.n = 17`), violating the documented 16-event bound. -/
theorem C4_bounds_violation :
    writesInBounds (List.replicate 17 "PAPI_L1_DCM") = false ∧
    16 ∈ posWrites (List.replicate 17 "PAPI_L1_DCM") ∧
    MAX_EVENTS = 16 ∧
    MAX_EVENTS < (List.replicate 17 "PAPI_L1_DCM").length := by
  decide

/-- C5: when `malloc` fails inside `runops` and everything else succeeds,
the run still returns normally with exit code 0: the allocation
diagnostic is printed to stderr, the counter read still occurs, every
report line is still written, and the final barrier is reached. -/
theorem C5_alloc_failure_recoverable (env : Env) (argv0 : String)
    (myrank : Nat) (cl : Cmdline) (h : okEnvP env)
    (hm : env.mallocOk = false) (hres : resolvesAll env (effNames cl))
    (hb : cl.badFlag = false) (ht : 0 ≤ timeoutOf cl) :
    papiTry env argv0 myrank cl none = Res.ok () (successTrace env myrank cl) ∧
    exitCode (papiTry env argv0 myrank cl none) = 0 ∧
    Ev.err ("Cannot alloc memory, " ++ toString ((2 ^ 20 : Nat) / 2 ^ 20) ++
      " MiB: " ++ env.osErr) ∈ successTrace env myrank cl ∧
    Ev.papiRead ∈ successTrace env myrank cl ∧
    (∀ l ∈ reportLines (effNames cl) (sample env (effNames cl)),
      Ev.out l ∈ successTrace env myrank cl) ∧
    Ev.mpiBarrier ∈ successTrace env myrank cl := by
  have hmain := success_run env argv0 myrank cl h hres hb ht
  have hec : exitCode (papiTry env argv0 myrank cl none) = 0 := by
    show exitCode (mainNoAlarm env argv0 myrank cl) = 0
    rw [hmain]
    rfl
  refine ⟨hmain, hec, ?_, ?_, ?_, ?_⟩
  · simp [successTrace, afterBanner, runopsTrace, hm]
  · simp [successTrace, afterBanner]
  · intro l hl
    rw [successTrace_split]
    refine List.mem_append.2 (Or.inr ?_)
    refine List.mem_cons.2 (Or.inr ?_)
    rw [postReadTrace, reportTrace]
    refine List.mem_append.2 (Or.inl ?_)
    refine List.mem_cons.2 (Or.inr ?_)
    exact List.mem_append.2 (Or.inl (List.mem_map.2 ⟨l, hl, rfl⟩))
  · simp [successTrace, afterBanner]

/-- C5 witness: the scenario with `malloc` forced to fail at rank 1. -/
theorem C5_witness :
    papiTry envNoMem "papi-try" 1 cl0 none =
      Res.ok () (successTrace envNoMem 1 cl0) ∧
    exitCode (papiTry envNoMem "papi-try" 1 cl0 none) = 0 ∧
    Ev.err ("Cannot alloc memory, " ++ toString ((2 ^ 20 : Nat) / 2 ^ 20) ++
      " MiB: " ++ envNoMem.osErr) ∈ successTrace envNoMem 1 cl0 ∧
    Ev.papiRead ∈ successTrace envNoMem 1 cl0 ∧
    (∀ l ∈ reportLines (effNames cl0) (sample envNoMem (effNames cl0)),
      Ev.out l ∈ successTrace envNoMem 1 cl0) ∧
    Ev.mpiBarrier ∈ successTrace envNoMem 1 cl0 :=
  C5_alloc_failure_recoverable envNoMem "papi-try" 1 cl0
    ⟨rfl, rfl, rfl, rfl, rfl, rfl, rfl, rfl, rfl, rfl⟩ rfl
    (fun nm _ => ⟨11, rfl⟩) rfl (by decide)

theorem traceAll_bind {P : Ev → Prop} {m : Res α} {f : α → Res β}
    (hm : TraceAll P m) (hf : ∀ a, TraceAll P (f a)) :
    TraceAll P (Res.bind m f) := by
  intro e he
  cases m with
  | exited c tr => exact hm e he
  | ok a tr =>
    rw [Res.bind_ok] at he
    cases hfa : f a with
    | exited c2 tr2 =>
      rw [hfa, Res.withTrace_exited, traceOf_exited] at he
      rcases List.mem_append.1 he with hc | hc
      · exact hm e hc
      · exact hf a e (by rw [hfa]; exact hc)
    | ok b tr2 =>
      rw [hfa, Res.withTrace_ok, traceOf_ok] at he
      rcases List.mem_append.1 he with hc | hc
      · exact hm e hc
      · exact hf a e (by rw [hfa]; exact hc)

theorem traceAll_okList {P : Ev → Prop} (a : α) (tr : List Ev)
    (h : ∀ e ∈ tr, P e) : TraceAll P (Res.ok a tr) := h

theorem traceAll_pure {P : Ev → Prop} (a : α) : TraceAll P (Res.pure a) :=
  fun e he => absurd he (List.not_mem_nil e)

/-- Every event `vcomplain` emits is a stderr line or `MPI_Finalize`. -/
theorem vcomplain_trace_shape (argv0 : String) (myrank ret : Nat) (r0 : Bool)
    (msg : String) (e : Ev)
    (he : e ∈ traceOf (vcomplain argv0 myrank ret r0 msg)) :
    (∃ s, e = Ev.err s) ∨ e = Ev.mpiFinalize := by
  rw [vcomplain_eq] at he
  split at he
  · rw [traceOf_exited] at he
    rcases List.mem_append.1 he with hc | hc
    · split at hc
      · simp at hc; exact Or.inl ⟨_, hc⟩
      · simp at hc
    · simp at hc; exact Or.inr hc
  · rw [traceOf_ok] at he
    split at he
    · simp at he; exact Or.inl ⟨_, he⟩
    · simp at he

/-- Every event `usage` emits is a stderr line or `MPI_Finalize`. -/
theorem usage_trace_shape (argv0 : String) (myrank : Nat)
    (msg : Option String) (e : Ev)
    (he : e ∈ traceOf (usage argv0 myrank msg)) :
    (∃ s, e = Ev.err s) ∨ e = Ev.mpiFinalize := by
  rw [usage_eq, traceOf_exited] at he
  rcases List.mem_append.1 he with hc | hc
  · split at hc
    · exact Or.inl ((usageMsgEvs_err argv0 msg e hc).imp (fun s hs => hs))
    · simp at hc
  · simp at hc; exact Or.inr hc

theorem traceAll_alarmAt_vcomplain (v : Int) (argv0 : String)
    (myrank ret : Nat) (r0 : Bool) (msg : String) :
    TraceAll (AlarmAt v) (vcomplain argv0 myrank ret r0 msg) := by
  intro e he t het
  rcases vcomplain_trace_shape argv0 myrank ret r0 msg e he with ⟨s, rfl⟩ | rfl <;>
    cases het

theorem traceAll_alarmAt_usage (v : Int) (argv0 : String) (myrank : Nat)
    (msg : Option String) :
    TraceAll (AlarmAt v) (usage argv0 myrank msg) := by
  intro e he t het
  rcases usage_trace_shape argv0 myrank msg e he with ⟨s, rfl⟩ | rfl <;>
    cases het

theorem traceAll_alarmAt_papiCheck (v : Int) (env : Env) (argv0 : String)
    (myrank : Nat) (r : Except Int Unit) (msg : String) :
    TraceAll (AlarmAt v) (papiCheck env argv0 myrank r msg) := by
  cases r with
  | ok a => exact traceAll_pure ()
  | error rv =>
    exact traceAll_alarmAt_vcomplain v argv0 myrank 1 false
      ("PAPI " ++ msg ++ ": " ++ env.strerror rv)

theorem traceAll_alarmAt_resolve (v : Int) (env : Env) (argv0 : String)
    (myrank : Nat) (names : List String) :
    TraceAll (AlarmAt v) (resolveNames env argv0 myrank names) := by
  induction names with
  | nil => exact traceAll_pure []
  | cons nm rest ih =>
    rw [resolveNames]
    cases env.nameToCode nm with
    | ok c => exact traceAll_bind ih (fun cs => traceAll_pure (c :: cs))
    | error rv =>
      exact traceAll_bind
        (traceAll_alarmAt_vcomplain v argv0 myrank 1 false
          ("PAPI " ++ nm ++ ": " ++ env.strerror rv))
        (fun _ => traceAll_pure [])

theorem traceAll_alarmAt_doit (v : Int) (env : Env) (argv0 : String)
    (myrank : Nat) (names : List String) :
    TraceAll (AlarmAt v) (doit env argv0 myrank names) := by
  have hemit : ∀ e2 : Ev, (∀ t, e2 = Ev.alarmSet t → t = v) →
      TraceAll (AlarmAt v) (Res.emit e2) := by
    intro e2 h2
    intro e he
    simp [Res.emit] at he
    subst he
    exact h2
  have hIf : TraceAll (AlarmAt v)
      (if env.libInitOk = false then
        complain argv0 myrank 1 false "PAPI Init failed"
       else Res.pure ()) := by
    split
    · exact traceAll_alarmAt_vcomplain v argv0 myrank 1 false "PAPI Init failed"
    · exact traceAll_pure ()
  have hrunops : TraceAll (AlarmAt v) (runops env (2 ^ 20)) := by
    rw [runops_eq]
    intro e he
    rw [traceOf_ok, runopsTrace] at he
    split at he <;> simp at he <;> rcases he with rfl | rfl <;>
      intro t het <;> cases het
  have hreport : ∀ value, TraceAll (AlarmAt v) (report names value) := by
    intro value e he
    rw [report, traceOf_ok, reportTrace] at he
    intro t het
    subst het
    rcases List.mem_cons.1 he with hc | hc
    · cases hc
    rcases List.mem_append.1 hc with hc2 | hc2
    · obtain ⟨s, _, hs⟩ := List.mem_map.1 hc2
      cases hs
    · simp at hc2
  exact traceAll_bind hIf (fun _ =>
    traceAll_bind (traceAll_alarmAt_papiCheck v env argv0 myrank env.threadInitOk "thread init") (fun _ =>
    traceAll_bind (hemit Ev.papiCreate (fun t het => Ev.noConfusion het)) (fun _ =>
    traceAll_bind (traceAll_alarmAt_papiCheck v env argv0 myrank env.createOk "create event set") (fun _ =>
    traceAll_bind (traceAll_bind (traceAll_alarmAt_resolve v env argv0 myrank names) (fun codes =>
        traceAll_bind (hemit (Ev.papiAdd codes) (fun t het => Ev.noConfusion het)) (fun _ =>
        traceAll_bind (traceAll_alarmAt_papiCheck v env argv0 myrank env.addOk "add events")
          (fun _ => traceAll_pure codes)))) (fun codes =>
    traceAll_bind (traceAll_bind (hemit Ev.papiStart (fun t het => Ev.noConfusion het)) (fun _ =>
        traceAll_alarmAt_papiCheck v env argv0 myrank env.startOk "start")) (fun _ =>
    traceAll_bind (traceAll_bind (hemit Ev.papiReset (fun t het => Ev.noConfusion het)) (fun _ =>
        traceAll_alarmAt_papiCheck v env argv0 myrank env.resetOk "reset")) (fun _ =>
    traceAll_bind hrunops (fun _ =>
    traceAll_bind (traceAll_bind (hemit Ev.papiRead (fun t het => Ev.noConfusion het)) (fun _ =>
        traceAll_bind (traceAll_alarmAt_papiCheck v env argv0 myrank env.readOk "read")
          (fun _ => traceAll_pure (codes.map env.counterOf)))) (fun value =>
    traceAll_bind (hreport value) (fun _ =>
    hemit Ev.papiShutdown (fun t het => Ev.noConfusion het)))))))))))

/-- Every alarm-arming event in a run's trace carries exactly the
configured timeout. -/
theorem traceAll_alarmAt_main (env : Env) (argv0 : String) (myrank : Nat)
    (cl : Cmdline) :
    TraceAll (AlarmAt (timeoutOf cl)) (mainNoAlarm env argv0 myrank cl) := by
  have hemit : ∀ e2 : Ev, (∀ t, e2 = Ev.alarmSet t → t = timeoutOf cl) →
      TraceAll (AlarmAt (timeoutOf cl)) (Res.emit e2) := by
    intro e2 h2 e he
    simp [Res.emit] at he
    subst he
    exact h2
  have hIf1 : TraceAll (AlarmAt (timeoutOf cl))
      (if env.mpiInitOk = false then
        complain argv0 0 1 true "MPI_Init failed.  MPI is required."
       else Res.pure ()) := by
    split
    · exact traceAll_alarmAt_vcomplain _ argv0 0 1 true "MPI_Init failed.  MPI is required."
    · exact traceAll_pure ()
  have hIf2 : TraceAll (AlarmAt (timeoutOf cl))
      (if env.rankOk = false then
        complain argv0 myrank 1 false "unable to get MPI rank"
       else Res.pure ()) := by
    split
    · exact traceAll_alarmAt_vcomplain _ argv0 myrank 1 false "unable to get MPI rank"
    · exact traceAll_pure ()
  have hIf3 : TraceAll (AlarmAt (timeoutOf cl))
      (if env.sizeOk = false then
        complain argv0 myrank 1 false "unable to get MPI size"
       else Res.pure ()) := by
    split
    · exact traceAll_alarmAt_vcomplain _ argv0 myrank 1 false "unable to get MPI size"
    · exact traceAll_pure ()
  have hT : TraceAll (AlarmAt (timeoutOf cl))
      (match cl.tArg with
       | none => Res.pure ()
       | some s =>
         if atoi s < 0 then usage argv0 myrank (some "bad timeout")
         else Res.pure ()) := by
    rcases cl.tArg with _ | s
    · exact traceAll_pure ()
    · by_cases hlt : atoi s < 0
      · simpa [hlt] using traceAll_alarmAt_usage (timeoutOf cl) argv0 myrank (some "bad timeout")
      · simpa [hlt] using traceAll_pure (P := AlarmAt (timeoutOf cl)) ()
  have hB : TraceAll (AlarmAt (timeoutOf cl))
      (if cl.badFlag = true then usage argv0 myrank none else Res.pure ()) := by
    split
    · exact traceAll_alarmAt_usage _ argv0 myrank none
    · exact traceAll_pure ()
  have hBan : TraceAll (AlarmAt (timeoutOf cl))
      (Res.ok () (bannerEvs myrank (effNames cl) env.size (timeoutOf cl))) := by
    intro e he t het
    obtain ⟨s, hs⟩ := bannerEvs_out _ _ _ _ e he
    rw [hs] at het
    cases het
  exact traceAll_bind hIf1 (fun _ =>
    traceAll_bind hIf2 (fun _ =>
    traceAll_bind hIf3 (fun _ =>
    traceAll_bind hT (fun _ =>
    traceAll_bind hB (fun _ =>
    traceAll_bind hBan (fun _ =>
    traceAll_bind (hemit (Ev.alarmSet (timeoutOf cl))
      (fun t het => by injection het with h2; exact h2.symm)) (fun _ =>
    traceAll_bind (traceAll_alarmAt_doit (timeoutOf cl) env argv0 myrank (effNames cl)) (fun _ =>
    traceAll_bind (hemit Ev.mpiBarrier (fun t het => Ev.noConfusion het)) (fun _ =>
    hemit Ev.mpiFinalize (fun t het => Ev.noConfusion het))))))))))

/-- With a non-positive configured timeout, no positive alarm is ever
armed, so the interruption test always fails. -/
theorem armedPositive_main_zero (env : Env) (argv0 : String) (myrank : Nat)
    (cl : Cmdline) (h0 : timeoutOf cl ≤ 0) (k : Nat) :
    armedPositive (traceOf (mainNoAlarm env argv0 myrank cl)) k = false := by
  rw [armedPositive, List.any_eq_false]
  intro i hi
  cases hx : (traceOf (mainNoAlarm env argv0 myrank cl)).get? i with
  | none => simp [hx]
  | some e =>
    cases e
    case alarmSet t =>
      have ht := traceAll_alarmAt_main env argv0 myrank cl (Ev.alarmSet t)
        (List.get?_mem hx) t rfl
      simp [hx, decide_eq_false_iff_not]
      omega
    all_goals simp [hx]

/-- C10: when the text given to `-t` parses to 0 via `atoi` — the literal
`"0"` as well as any non-numeric string — the value passes the
`g.timeout < 0` usage check, the run behaves exactly as with `-t 0`
(timeout 0), the alarm is armed with 0, and since `alarm(0)` cancels
rather than arms, the watchdog can never fire: interruption at any point
leaves the run unchanged. -/
theorem C10_atoi_zero_timeout (env : Env) (argv0 : String) (myrank : Nat)
    (pos : List String) (s : String) (h : atoi s = 0) :
    timeoutOf ⟨some s, false, pos⟩ = 0 ∧
    mainNoAlarm env argv0 myrank ⟨some s, false, pos⟩ =
      mainNoAlarm env argv0 myrank ⟨some "0", false, pos⟩ ∧
    (env.mpiInitOk = true → env.rankOk = true → env.sizeOk = true →
      Ev.alarmSet 0 ∈ traceOf (mainNoAlarm env argv0 myrank ⟨some s, false, pos⟩)) ∧
    (∀ fire, papiTry env argv0 myrank ⟨some s, false, pos⟩ fire =
      mainNoAlarm env argv0 myrank ⟨some s, false, pos⟩) := by
  have ht0 : timeoutOf ⟨some s, false, pos⟩ = (0 : Int) := by
    simp [timeoutOf, h]
  have h00 : atoi "0" = 0 := by decide
  refine ⟨ht0, ?_, ?_, ?_⟩
  · simp [mainNoAlarm, timeoutOf, h, h00, effNames]
  · intro h1 h2 h3
    have hnneg : ¬ (atoi s < 0) := by rw [h]; exact lt_irrefl 0
    simp [mainNoAlarm, h1, h2, h3, hnneg, Res.emit, Res.pure, timeoutOf, h]
  · intro fire
    cases fire with
    | none => rfl
    | some k =>
      have hred : papiTry env argv0 myrank ⟨some s, false, pos⟩ (some k) =
          if armedPositive
                (traceOf (mainNoAlarm env argv0 myrank ⟨some s, false, pos⟩)) k =
              true ∧
              k < (traceOf (mainNoAlarm env argv0 myrank ⟨some s, false, pos⟩)).length
          then
            Res.exited 1
              ((traceOf (mainNoAlarm env argv0 myrank ⟨some s, false, pos⟩)).take k ++
                sigalarmEvs myrank)
          else mainNoAlarm env argv0 myrank ⟨some s, false, pos⟩ := rfl
      rw [hred, if_neg]
      intro hcon
      rw [armedPositive_main_zero env argv0 myrank ⟨some s, false, pos⟩
        (le_of_eq ht0) k] at hcon
      exact absurd hcon.1 (by simp)

/-- C10 witness: the non-numeric `-t` argument `"abc"` at rank 0. -/
theorem C10_witness :
    timeoutOf ⟨some "abc", false, []⟩ = 0 ∧
    mainNoAlarm envOk "papi-try" 0 ⟨some "abc", false, []⟩ =
      mainNoAlarm envOk "papi-try" 0 ⟨some "0", false, []⟩ ∧
    (envOk.mpiInitOk = true → envOk.rankOk = true → envOk.sizeOk = true →
      Ev.alarmSet 0 ∈
        traceOf (mainNoAlarm envOk "papi-try" 0 ⟨some "abc", false, []⟩)) ∧
    (∀ fire, papiTry envOk "papi-try" 0 ⟨some "abc", false, []⟩ fire =
      mainNoAlarm envOk "papi-try" 0 ⟨some "abc", false, []⟩) :=
  C10_atoi_zero_timeout envOk "papi-try" 0 [] "abc" (by decide)

/-- The counter sample has one value per event name. -/
theorem sample_length (env : Env) (names : List String) :
    (sample env names).length = names.length := by
  simp [sample, resolvedCodes]

/-- The report prints one line per (name, value) pair. -/
theorem reportLines_length (names : List String) (vals : List Int)
    (h : vals.length = names.length) :
    (reportLines names vals).length = names.length := by
  induction names generalizing vals with
  | nil => cases vals with
    | nil => rfl
    | cons v vs => simp at h
  | cons nm nms ih =>
    cases vals with
    | nil => simp at h
    | cons v vs =>
      rw [reportLines]
      simp only [List.length_cons] at h ⊢
      rw [ih vs (by omega)]

/-- Line `i` of the report is `names[i]: vals[i]`. -/
theorem reportLines_getD (names : List String) (vals : List Int)
    (h : vals.length = names.length) (i : Nat) (hi : i < names.length) :
    (reportLines names vals).getD i "" =
      names.getD i "" ++ ": " ++ toString (vals.getD i 0) := by
  induction names generalizing vals i with
  | nil => simp at hi
  | cons nm nms ih =>
    cases vals with
    | nil => simp at h
    | cons v vs =>
      cases i with
      | zero => rfl
      | succ j =>
        rw [reportLines, List.getD_cons_succ, List.getD_cons_succ,
          List.getD_cons_succ]
        exact ih vs (by simpa using h) j (by simpa using hi)

/-- Entry `i` of the counter sample is the counter value of the code the
registry resolved for name `i`. -/
theorem sample_getD (env : Env) (names : List String) (i : Nat)
    (hi : i < names.length) :
    (sample env names).getD i 0 =
      env.counterOf (codeOf env (names.getD i "")) := by
  induction names generalizing i with
  | nil => simp at hi
  | cons nm nms ih =>
    cases i with
    | zero => rfl
    | succ j =>
      rw [sample, resolvedCodes] at ih ⊢
      simp only [List.map_cons, List.getD_cons_succ]
      exact ih j (by simpa using hi)

/-- C6: for every event specification of length 1..16 that resolves, the
counter sample has exactly one entry per name, the report emits exactly
one `name: value` line per name in specification order, and the value at
index `i` is the counter reading for the event name at index `i`. -/
theorem C6_order_preservation (env : Env) (argv0 : String) (myrank : Nat)
    (cl : Cmdline) (h : okEnvP env) (hres : resolvesAll env (effNames cl))
    (hb : cl.badFlag = false) (ht : 0 ≤ timeoutOf cl)
    (_hn : 1 ≤ (effNames cl).length ∧ (effNames cl).length ≤ 16) :
    (sample env (effNames cl)).length = (effNames cl).length ∧
    (reportLines (effNames cl) (sample env (effNames cl))).length =
      (effNames cl).length ∧
    (∀ i, i < (effNames cl).length →
      (reportLines (effNames cl) (sample env (effNames cl))).getD i "" =
        (effNames cl).getD i "" ++ ": " ++
          toString (env.counterOf (codeOf env ((effNames cl).getD i "")))) ∧
    papiTry env argv0 myrank cl none = Res.ok () (successTrace env myrank cl) ∧
    (∀ l ∈ reportLines (effNames cl) (sample env (effNames cl)),
      Ev.out l ∈ successTrace env myrank cl) := by
  have hsl := sample_length env (effNames cl)
  refine ⟨hsl, reportLines_length _ _ hsl, ?_, ?_, ?_⟩
  · intro i hi
    rw [reportLines_getD _ _ hsl i hi, sample_getD env (effNames cl) i hi]
  · exact success_run env argv0 myrank cl h hres hb ht
  · intro l hl
    rw [successTrace_split]
    refine List.mem_append.2 (Or.inr ?_)
    refine List.mem_cons.2 (Or.inr ?_)
    rw [postReadTrace, reportTrace]
    refine List.mem_append.2 (Or.inl ?_)
    refine List.mem_cons.2 (Or.inr ?_)
    exact List.mem_append.2 (Or.inl (List.mem_map.2 ⟨l, hl, rfl⟩))

/-- C6 witness: the default four-event specification in the
all-successful environment at rank 0. -/
theorem C6_witness :
    (sample envOk (effNames cl0)).length = (effNames cl0).length ∧
    (reportLines (effNames cl0) (sample envOk (effNames cl0))).length =
      (effNames cl0).length ∧
    (∀ i, i < (effNames cl0).length →
      (reportLines (effNames cl0) (sample envOk (effNames cl0))).getD i "" =
        (effNames cl0).getD i "" ++ ": " ++
          toString (envOk.counterOf (codeOf envOk ((effNames cl0).getD i "")))) ∧
    papiTry envOk "papi-try" 0 cl0 none = Res.ok () (successTrace envOk 0 cl0) ∧
    (∀ l ∈ reportLines (effNames cl0) (sample envOk (effNames cl0)),
      Ev.out l ∈ successTrace envOk 0 cl0) :=
  C6_order_preservation envOk "papi-try" 0 cl0
    ⟨rfl, rfl, rfl, rfl, rfl, rfl, rfl, rfl, rfl, rfl⟩
    (fun nm _ => ⟨11, rfl⟩) rfl (by decide) (by decide)

/-- C8 counterexample: at rank 1 (not rank 0) the run writes the report
lines and the workload OK line to standard output, refuting the claim
that stdout is written only by rank 0.  (Only the banner is
rank-gated.) -/
theorem C8_counterexample :
    papiTry envOk "papi-try" 1 cl0 none = Res.ok () (afterBanner envOk cl0) ∧
    Ev.out "PAPI_L1_DCM: 42" ∈ traceOf (papiTry envOk "papi-try" 1 cl0 none) ∧
    Ev.out "1 MiB: OK" ∈ traceOf (papiTry envOk "papi-try" 1 cl0 none) := by
  decide

/-- C8 amended: only the configuration banner is restricted to rank 0;
the per-event report lines and the workload's `MiB: OK` line are written
to standard output by every rank (the post-banner trace does not depend
on the rank). -/
theorem C8_stdout_amended (env : Env) (argv0 : String) (myrank : Nat)
    (cl : Cmdline) (h : okEnvP env) (hres : resolvesAll env (effNames cl))
    (hb : cl.badFlag = false) (ht : 0 ≤ timeoutOf cl) :
    papiTry env argv0 myrank cl none =
      Res.ok () (bannerEvs myrank (effNames cl) env.size (timeoutOf cl) ++
        afterBanner env cl) ∧
    (myrank ≠ 0 →
      bannerEvs myrank (effNames cl) env.size (timeoutOf cl) = []) ∧
    (∀ l ∈ reportLines (effNames cl) (sample env (effNames cl)),
      Ev.out l ∈ afterBanner env cl) ∧
    (env.mallocOk = true → Ev.out (toString ((2 ^ 20 : Nat) / 2 ^ 20) ++
      " MiB: OK") ∈ afterBanner env cl) := by
  refine ⟨success_run env argv0 myrank cl h hres hb ht, ?_, ?_, ?_⟩
  · exact bannerEvs_ne_zero myrank (effNames cl) env.size (timeoutOf cl)
  · intro l hl
    rw [afterBanner]
    refine List.mem_cons.2 (Or.inr ?_)
    refine List.mem_cons.2 (Or.inr ?_)
    refine List.mem_cons.2 (Or.inr ?_)
    refine List.mem_cons.2 (Or.inr ?_)
    refine List.mem_cons.2 (Or.inr ?_)
    refine List.mem_append.2 (Or.inr ?_)
    refine List.mem_cons.2 (Or.inr ?_)
    refine List.mem_append.2 (Or.inl ?_)
    rw [reportTrace]
    refine List.mem_cons.2 (Or.inr ?_)
    exact List.mem_append.2 (Or.inl (List.mem_map.2 ⟨l, hl, rfl⟩))
  · intro hmal
    simp [afterBanner, runopsTrace, hmal]

/-- C8 witness: the amended stdout property at rank 1 with the default
command line. -/
theorem C8_witness :
    papiTry envOk "papi-try" 1 cl0 none =
      Res.ok () (bannerEvs 1 (effNames cl0) envOk.size (timeoutOf cl0) ++
        afterBanner envOk cl0) ∧
    ((1 : Nat) ≠ 0 →
      bannerEvs 1 (effNames cl0) envOk.size (timeoutOf cl0) = []) ∧
    (∀ l ∈ reportLines (effNames cl0) (sample envOk (effNames cl0)),
      Ev.out l ∈ afterBanner envOk cl0) ∧
    (envOk.mallocOk = true → Ev.out (toString ((2 ^ 20 : Nat) / 2 ^ 20) ++
      " MiB: OK") ∈ afterBanner envOk cl0) :=
  C8_stdout_amended envOk "papi-try" 1 cl0
    ⟨rfl, rfl, rfl, rfl, rfl, rfl, rfl, rfl, rfl, rfl⟩
    (fun nm _ => ⟨11, rfl⟩) rfl (by decide)
